import Mathlib
set_option maxHeartbeats 1000000
set_option maxRecDepth 100000
/-!
Verification of the SyllabiWise backend core pipeline (`recommender/views.py`)
against its natural-language specification.

The Python source is shallowly embedded:
* `extract_syllabus_topics` models the syllabus cleaner (lines 52-70),
  including the two `re.sub` calls, modelled at the level of their actual
  regex semantics (alternation order, greediness, anchoring).
* `safe_parse_response` models the Gemini output parser (lines 73-89):
  fenced-block extraction with the lazy regex, then `json.loads`, then
  `ast.literal_eval`, with the Python `(value_or_None, error_or_None)`
  return convention in which a successfully decoded `null`/`None` is
  indistinguishable from a failed parse.
* `post` models `PlaylistAnalyzeView.post` (lines 96-176) with the three
  external collaborators (yt-dlp playlist fetch, Gemini call, MongoDB
  insert) as oracle inputs, and also returns the list of collaborators
  actually invoked, in order.

Machine-level caveats of the embedding, noted where they occur: Python
whitespace sets are modelled by their ASCII members; JSON/Python float,
hex/octal numeric literals, adjacent string-literal concatenation and
surrogate-pair `\u` decoding are outside the modelled fragment (no theorem
below depends on them); parser recursion uses an explicit fuel that is
always ample for the inputs reasoned about.
-/

/-- Python values, as produced by `json.loads` / `ast.literal_eval`.
`PyVal.none` is Python `None` (which `json.loads` returns for `null`). -/
inductive PyVal where
  | str (s : String)
  | int (n : Int)
  | bool (b : Bool)
  | none
  | list (xs : List PyVal)
  | tuple (xs : List PyVal)
  | dict (entries : List (PyVal × PyVal))
  | set (xs : List PyVal)

/-- Python `x is None` test used by the view (`if parsed_response is None`). -/
def PyVal.isNoneV : PyVal → Bool
  | PyVal.none => true
  | _ => false

/-- ASCII members of Python's default whitespace set (`str.strip`,
`str.split`, and the `re` pattern `\s`): space, tab, LF, CR, VT, FF. -/
def isPyWsChar (c : Char) : Bool :=
  c = ' ' || c = '\t' || c = '\n' || c = '\r' || c = Char.ofNat 11 || c = Char.ofNat 12

/-- Python `str.strip()` on a character list. -/
def pyStrip (cs : List Char) : List Char :=
  (((cs.dropWhile isPyWsChar).reverse).dropWhile isPyWsChar).reverse

/-- Python `s.split('\n')`: split on each newline, keeping empty pieces. -/
def splitOnNL : List Char → List (List Char)
  | [] => [[]]
  | '\n' :: t => [] :: splitOnNL t
  | c :: t =>
    match splitOnNL t with
    | h :: r => (c :: h) :: r
    | [] => [[c]]

/-- Token counter for Python `len(line.split())`: number of maximal
non-whitespace runs. The Bool argument says whether we are inside a run. -/
def tokCountAux : List Char → Bool → Nat
  | [], _ => 0
  | c :: t, inW =>
    if isPyWsChar c then tokCountAux t false
    else (if inW then 0 else 1) + tokCountAux t true

def tokCount (cs : List Char) : Nat := tokCountAux cs false

def isDigitC (c : Char) : Bool := '0' ≤ c && c ≤ '9'

def listStartsWith : List Char → List Char → Bool
  | [], _ => true
  | _ :: _, [] => false
  | a :: ps, b :: t => a = b && listStartsWith ps t

/-- Case-insensitive prefix test (`re.IGNORECASE` on ASCII letters). -/
def listStartsWithCI : List Char → List Char → Bool
  | [], _ => true
  | _ :: _, [] => false
  | a :: ps, b :: t => a.toLower = b.toLower && listStartsWithCI ps t

/-- Alternative 1 of the marker regex, `\d+\.` : one or more digits followed
by a literal dot. Returns the remainder after the match. -/
def matchNumDot (cs : List Char) : Option (List Char) :=
  match cs with
  | c :: t =>
    if isDigitC c then
      match t.dropWhile isDigitC with
      | '.' :: r => some r
      | _ => Option.none
    else Option.none
  | [] => Option.none

/-- Alternatives `Module \d+` / `Unit \d+` (case-insensitive): the word, one
space, one or more digits. Returns the remainder after the match. -/
def matchWordNum (w : List Char) (cs : List Char) : Option (List Char) :=
  if listStartsWithCI w cs then
    match cs.drop w.length with
    | ' ' :: c :: t =>
      if isDigitC c then some (t.dropWhile isDigitC) else Option.none
    | _ => Option.none
  else Option.none

/-- Alternatives `Module \d+:` / `Unit \d+:`. These are listed in the source
regex after the colon-less forms, which always match first, so they are dead;
they are kept to mirror the source alternation faithfully. -/
def matchWordNumColon (w : List Char) (cs : List Char) : Option (List Char) :=
  match matchWordNum w cs with
  | some (':' :: r) => some r
  | _ => Option.none

/-- The leading-marker regex of line 62,
`^(\d+\.|\-|\*|Module \d+|Unit \d+|Module \d+:|Unit \d+:)\s*` with
`re.IGNORECASE`: the first alternative (in order) matching at position 0,
followed by greedy `\s*`. `re.sub` can replace it at most once because of
the `^` anchor. If no alternative matches, the line is unchanged. -/
def stripMarker (cs : List Char) : List Char :=
  let m :=
    matchNumDot cs <|>
    (match cs with | '-' :: t => some t | _ => Option.none) <|>
    (match cs with | '*' :: t => some t | _ => Option.none) <|>
    matchWordNum ['M', 'o', 'd', 'u', 'l', 'e'] cs <|>
    matchWordNum ['U', 'n', 'i', 't'] cs <|>
    matchWordNumColon ['M', 'o', 'd', 'u', 'l', 'e'] cs <|>
    matchWordNumColon ['U', 'n', 'i', 't'] cs
  match m with
  | some rest => rest.dropWhile isPyWsChar
  | Option.none => cs

/-- The trailing hour-suffix regex of line 63, `\d+\s*[L|l]$` (note the
character class is `{L, |, l}`): the leftmost match is the maximal trailing
digit run, optional whitespace, then one class character at the very end.
If it matches, `re.sub` removes it. -/
def stripHours (cs : List Char) : List Char :=
  match cs.reverse with
  | c :: rest =>
    if c = 'L' || c = 'l' || c = '|' then
      let r2 := rest.dropWhile isPyWsChar
      match r2 with
      | d :: _ =>
        if isDigitC d then (r2.dropWhile isDigitC).reverse else cs
      | [] => cs
    else cs
  | [] => cs

/-- Model of `extract_syllabus_topics` (views.py lines 52-70): split on newlines,
strip each line, drop empties, strip the leading marker, strip the trailing
hour suffix and re-strip, drop lines with fewer than two whitespace-separated
tokens, keep the rest in order. -/
def extract_syllabus_topics (raw : String) : List String :=
  (splitOnNL raw.data).filterMap (fun line =>
    let l1 := pyStrip line
    if l1 = [] then Option.none
    else
      let l3 := pyStrip (stripHours (stripMarker l1))
      if tokCount l3 < 2 then Option.none else some (String.mk l3))

/-- Python `sep.join(xs)` (`str.join`). -/
def pyJoin (sep : String) : List String → String
  | [] => ""
  | [x] => x
  | x :: y :: t => x ++ sep ++ pyJoin sep (y :: t)

/-- The numbered video lines `f"{i+1}. {title}" for i, title in
enumerate(video_titles)`: `i` starts at the given index (0 at the top call). -/
def numberLines (i : Nat) : List String → List String
  | [] => []
  | t :: ts => (toString (i + 1) ++ ". " ++ t) :: numberLines (i + 1) ts

/-- The fixed instruction text of the prompt (lines 127-130 up to and
including the `"Syllabus Topics:\n"` header). -/
def promptPreamble : String :=
  "You are an AI assistant. Match YouTube video titles with syllabus topics only.\n" ++
  "Return only a VALID JSON list of objects like this:\n" ++
  "[\x7b\"topic\": \"Binary Trees\", \"videos\": [\"Video 1\", \"Video 2\"]\x7d]\n\n" ++
  "Syllabus Topics:\n"

/-- The prompt construction of views.py lines 126-134: preamble, one
`- <topic>` bullet per topic joined by newlines, a blank line, the
`Video Titles:` header, then one `<i+1>. <title>` line per title. -/
def build_prompt (topics titles : List String) : String :=
  promptPreamble ++
  pyJoin "\n" (topics.map (fun t => "- " ++ t)) ++
  "\n\n" ++ "Video Titles:\n" ++
  pyJoin "\n" (numberLines 0 titles)

/-- JSON whitespace, exactly the four characters skipped by Python's
`json` scanner (and also the ASCII core of the tokenizer whitespace that
Python allows between literal tokens inside brackets). -/
def isJWsChar (c : Char) : Bool :=
  c = ' ' || c = '\t' || c = '\n' || c = '\r'

def skipJWs (cs : List Char) : List Char := cs.dropWhile isJWsChar

def hexDigVal (c : Char) : Option Nat :=
  if '0' ≤ c && c ≤ '9' then some (c.toNat - 48)
  else if 'a' ≤ c && c ≤ 'f' then some (c.toNat - 87)
  else if 'A' ≤ c && c ≤ 'F' then some (c.toNat - 55)
  else Option.none

def hex4Val (a b c d : Char) : Option Nat :=
  match hexDigVal a, hexDigVal b, hexDigVal c, hexDigVal d with
  | some x, some y, some z, some w => some (x * 4096 + y * 256 + z * 16 + w)
  | _, _, _, _ => Option.none

def hex2Val (a b : Char) : Option Nat :=
  match hexDigVal a, hexDigVal b with
  | some x, some y => some (x * 16 + y)
  | _, _ => Option.none

/-- Body of a JSON string after the opening quote (Python `json.loads`,
strict mode): returns the decoded characters and the input after the closing
quote. Raw control characters are rejected, unknown escapes are rejected,
`\uXXXX` decodes four hex digits (surrogate pairing is outside the modelled
fragment; no theorem below feeds surrogates). -/
def parseJStr : List Char → Option (List Char × List Char)
  | [] => Option.none
  | c :: t =>
    if c = '\"' then some ([], t)
    else if c = '\\' then
      match t with
      | [] => Option.none
      | e :: t2 =>
        if e = 'u' then
          match t2 with
          | a :: b :: c2 :: d :: t3 =>
            match hex4Val a b c2 d with
            | some n => (parseJStr t3).map (fun p => (Char.ofNat n :: p.1, p.2))
            | Option.none => Option.none
          | _ => Option.none
        else if e = '\"' then (parseJStr t2).map (fun p => ('\"' :: p.1, p.2))
        else if e = '\\' then (parseJStr t2).map (fun p => ('\\' :: p.1, p.2))
        else if e = '/' then (parseJStr t2).map (fun p => ('/' :: p.1, p.2))
        else if e = 'b' then (parseJStr t2).map (fun p => (Char.ofNat 8 :: p.1, p.2))
        else if e = 'f' then (parseJStr t2).map (fun p => (Char.ofNat 12 :: p.1, p.2))
        else if e = 'n' then (parseJStr t2).map (fun p => ('\n' :: p.1, p.2))
        else if e = 'r' then (parseJStr t2).map (fun p => ('\r' :: p.1, p.2))
        else if e = 't' then (parseJStr t2).map (fun p => ('\t' :: p.1, p.2))
        else Option.none
    else if c.toNat < 32 then Option.none
    else (parseJStr t).map (fun p => (c :: p.1, p.2))

def natOfDigits (ds : List Char) : Nat :=
  ds.foldl (fun a c => a * 10 + (c.toNat - 48)) 0

/-- JSON integer magnitude: `0` or a nonzero-leading digit run. A following
`.`/`e`/`E` would start a float, which is outside the modelled fragment
(no theorem below feeds floats), so the model rejects there. -/
def parseJNat (cs : List Char) : Option (Nat × List Char) :=
  match cs with
  | '0' :: t =>
    match t with
    | c :: _ => if c = '.' || c = 'e' || c = 'E' then Option.none else some (0, t)
    | [] => some (0, [])
  | c :: t =>
    if isDigitC c then
      let rest := t.dropWhile isDigitC
      match rest with
      | d :: _ =>
        if d = '.' || d = 'e' || d = 'E' then Option.none
        else some (natOfDigits (c :: t.takeWhile isDigitC), rest)
      | [] => some (natOfDigits (c :: t.takeWhile isDigitC), [])
    else Option.none
  | [] => Option.none

def parseJInt (cs : List Char) : Option (PyVal × List Char) :=
  match cs with
  | '-' :: t => (parseJNat t).map (fun p => (PyVal.int (-(p.1 : Int)), p.2))
  | _ => (parseJNat cs).map (fun p => (PyVal.int ((p.1 : Int)), p.2))

mutual

/-- One JSON value (Python `json.loads` grammar, integers only among
numbers). The fuel argument only bounds recursion depth; `json_loadsC`
supplies an ample amount. -/
def parseJVal : Nat → List Char → Option (PyVal × List Char)
  | 0, _ => Option.none
  | f + 1, cs =>
    match cs with
    | '\"' :: t => (parseJStr t).map (fun p => (PyVal.str (String.mk p.1), p.2))
    | 'n' :: 'u' :: 'l' :: 'l' :: t => some (PyVal.none, t)
    | 't' :: 'r' :: 'u' :: 'e' :: t => some (PyVal.bool true, t)
    | 'f' :: 'a' :: 'l' :: 's' :: 'e' :: t => some (PyVal.bool false, t)
    | '[' :: t =>
      match skipJWs t with
      | ']' :: r => some (PyVal.list [], r)
      | t1 => (parseJItems f t1).map (fun p => (PyVal.list p.1, p.2))
    | '\x7b' :: t =>
      match skipJWs t with
      | '\x7d' :: r => some (PyVal.dict [], r)
      | t1 => (parseJPairs f t1).map (fun p => (PyVal.dict p.1, p.2))
    | _ => parseJInt cs

/-- Nonempty JSON array item list, expecting `value (ws ',' ws value)* ws ']'`. -/
def parseJItems : Nat → List Char → Option (List PyVal × List Char)
  | 0, _ => Option.none
  | f + 1, cs =>
    match parseJVal f cs with
    | some (v, r) =>
      match skipJWs r with
      | ',' :: r2 => (parseJItems f (skipJWs r2)).map (fun p => (v :: p.1, p.2))
      | ']' :: r2 => some ([v], r2)
      | _ => Option.none
    | Option.none => Option.none

/-- Nonempty JSON object member list, keys must be strings, no trailing
comma. -/
def parseJPairs : Nat → List Char → Option (List (PyVal × PyVal) × List Char)
  | 0, _ => Option.none
  | f + 1, cs =>
    match cs with
    | '\"' :: t =>
      match parseJStr t with
      | some (k, r) =>
        match skipJWs r with
        | ':' :: r2 =>
          match parseJVal f (skipJWs r2) with
          | some (v, r3) =>
            match skipJWs r3 with
            | ',' :: r4 =>
              (parseJPairs f (skipJWs r4)).map
                (fun p => ((PyVal.str (String.mk k), v) :: p.1, p.2))
            | '\x7d' :: r4 => some ([(PyVal.str (String.mk k), v)], r4)
            | _ => Option.none
          | Option.none => Option.none
        | _ => Option.none
      | Option.none => Option.none
    | _ => Option.none

end

/-- Model of `json.loads` on a character list: skip leading whitespace, parse one
value, require only whitespace after it ("Extra data" otherwise). Duplicate
object keys are kept in parse order (Python collapses them into a dict;
no theorem below depends on duplicates). -/
def json_loadsC (cs : List Char) : Option PyVal :=
  match parseJVal (2 * cs.length + 8) (skipJWs cs) with
  | some (v, r) => if skipJWs r = [] then some v else Option.none
  | Option.none => Option.none

def json_loads (s : String) : Option PyVal := json_loadsC s.data

/-- The apostrophe character, Python's single quote. -/
def aposC : Char := Char.ofNat 39

/-- Body of a Python string literal after the opening quote `q` (either
quote style). Recognised escapes: `\\`, `\'`, `\"`, `\n`, `\r`, `\t`,
`\xHH`, `\uXXXX`; any other escape keeps the backslash and the character
(as CPython does for unrecognised escapes), except the malformed/unmodelled
`\u`/`\x`/`\N`/octal forms which reject (octal and named escapes are outside
the modelled fragment; no theorem below feeds them). A raw newline
terminates the literal unsuccessfully. -/
def parsePStr (q : Char) : List Char → Option (List Char × List Char)
  | [] => Option.none
  | c :: t =>
    if c = '\\' then
      match t with
      | [] => Option.none
      | e :: t2 =>
        if e = 'u' then
          match t2 with
          | a :: b :: c2 :: d :: t3 =>
            match hex4Val a b c2 d with
            | some n => (parsePStr q t3).map (fun p => (Char.ofNat n :: p.1, p.2))
            | Option.none => Option.none
          | _ => Option.none
        else if e = 'x' then
          match t2 with
          | a :: b :: t3 =>
            match hex2Val a b with
            | some n => (parsePStr q t3).map (fun p => (Char.ofNat n :: p.1, p.2))
            | Option.none => Option.none
          | _ => Option.none
        else if e = '\\' then (parsePStr q t2).map (fun p => ('\\' :: p.1, p.2))
        else if e = aposC then (parsePStr q t2).map (fun p => (aposC :: p.1, p.2))
        else if e = '\"' then (parsePStr q t2).map (fun p => ('\"' :: p.1, p.2))
        else if e = 'n' then (parsePStr q t2).map (fun p => ('\n' :: p.1, p.2))
        else if e = 'r' then (parsePStr q t2).map (fun p => ('\r' :: p.1, p.2))
        else if e = 't' then (parsePStr q t2).map (fun p => ('\t' :: p.1, p.2))
        else if e = 'N' || isDigitC e then Option.none
        else (parsePStr q t2).map (fun p => ('\\' :: e :: p.1, p.2))
    else if c = q then some ([], t)
    else if c = '\n' || c = '\r' then Option.none
    else (parsePStr q t).map (fun p => (c :: p.1, p.2))

/-- Python integer literal magnitude (decimal only): a following
`.`/`e`/`j`/`_`/hex-octal-binary marker would start a numeric form outside
the modelled fragment, so the model rejects there (no theorem below feeds
such forms). -/
def parsePNum (cs : List Char) : Option (Nat × List Char) :=
  match cs with
  | c :: t =>
    if isDigitC c then
      let rest := t.dropWhile isDigitC
      match rest with
      | d :: _ =>
        if d = '.' || d = 'e' || d = 'E' || d = 'j' || d = 'J' || d = '_' ||
            d = 'x' || d = 'X' || d = 'o' || d = 'O' || d = 'b' || d = 'B' then
          Option.none
        else some (natOfDigits (c :: t.takeWhile isDigitC), rest)
      | [] => some (natOfDigits (c :: t.takeWhile isDigitC), [])
    else Option.none
  | [] => Option.none

mutual

/-- One expression of the `ast.literal_eval` grammar: string literals in
either quote style, decimal integers with an optional sign, `True`/`False`/
`None`, lists, parenthesised expressions and tuples, dicts and sets (with
Python's trailing-comma rules). Function calls, attribute access,
subscripts, and any other identifier are not in the grammar and fail, as
`ast.literal_eval` raises for them. -/
def parsePVal : Nat → List Char → Option (PyVal × List Char)
  | 0, _ => Option.none
  | f + 1, cs =>
    match cs with
    | [] => Option.none
    | c :: t =>
      if c = aposC then
        (parsePStr aposC t).map (fun p => (PyVal.str (String.mk p.1), p.2))
      else if c = '\"' then
        (parsePStr '\"' t).map (fun p => (PyVal.str (String.mk p.1), p.2))
      else if c = '[' then
        match skipJWs t with
        | ']' :: r => some (PyVal.list [], r)
        | t1 => (parsePItems f t1).map (fun p => (PyVal.list p.1, p.2))
      else if c = '(' then
        match skipJWs t with
        | ')' :: r => some (PyVal.tuple [], r)
        | t1 =>
          match parsePVal f t1 with
          | some (v, r) =>
            match skipJWs r with
            | ')' :: r2 => some (v, r2)
            | ',' :: r2 =>
              match skipJWs r2 with
              | ')' :: r3 => some (PyVal.tuple [v], r3)
              | r3 => (parsePTupleItems f r3).map (fun p => (PyVal.tuple (v :: p.1), p.2))
            | _ => Option.none
          | Option.none => Option.none
      else if c = '\x7b' then
        match skipJWs t with
        | '\x7d' :: r => some (PyVal.dict [], r)
        | t1 =>
          match parsePVal f t1 with
          | some (k, r) =>
            match skipJWs r with
            | ':' :: r2 =>
              match parsePVal f (skipJWs r2) with
              | some (v, r3) =>
                match skipJWs r3 with
                | ',' :: r4 =>
                  match skipJWs r4 with
                  | '\x7d' :: r5 => some (PyVal.dict [(k, v)], r5)
                  | r5 => (parsePPairs f r5).map (fun p => (PyVal.dict ((k, v) :: p.1), p.2))
                | '\x7d' :: r4 => some (PyVal.dict [(k, v)], r4)
                | _ => Option.none
              | Option.none => Option.none
            | ',' :: r2 =>
              match skipJWs r2 with
              | '\x7d' :: r3 => some (PyVal.set [k], r3)
              | r3 => (parsePSetItems f r3).map (fun p => (PyVal.set (k :: p.1), p.2))
            | '\x7d' :: r2 => some (PyVal.set [k], r2)
            | _ => Option.none
          | Option.none => Option.none
      else if c = '-' then
        (parsePNum (skipJWs t)).map (fun p => (PyVal.int (-(p.1 : Int)), p.2))
      else if c = '+' then
        (parsePNum (skipJWs t)).map (fun p => (PyVal.int ((p.1 : Int)), p.2))
      else if isDigitC c then
        (parsePNum cs).map (fun p => (PyVal.int ((p.1 : Int)), p.2))
      else if listStartsWith ['T', 'r', 'u', 'e'] cs then some (PyVal.bool true, cs.drop 4)
      else if listStartsWith ['F', 'a', 'l', 's', 'e'] cs then some (PyVal.bool false, cs.drop 5)
      else if listStartsWith ['N', 'o', 'n', 'e'] cs then some (PyVal.none, cs.drop 4)
      else Option.none

/-- Nonempty Python list items, trailing comma allowed. -/
def parsePItems : Nat → List Char → Option (List PyVal × List Char)
  | 0, _ => Option.none
  | f + 1, cs =>
    match parsePVal f cs with
    | some (v, r) =>
      match skipJWs r with
      | ',' :: r2 =>
        match skipJWs r2 with
        | ']' :: r3 => some ([v], r3)
        | r3 => (parsePItems f r3).map (fun p => (v :: p.1, p.2))
      | ']' :: r2 => some ([v], r2)
      | _ => Option.none
    | Option.none => Option.none

/-- Remaining Python tuple items after `expr ,` with more to come. -/
def parsePTupleItems : Nat → List Char → Option (List PyVal × List Char)
  | 0, _ => Option.none
  | f + 1, cs =>
    match parsePVal f cs with
    | some (v, r) =>
      match skipJWs r with
      | ',' :: r2 =>
        match skipJWs r2 with
        | ')' :: r3 => some ([v], r3)
        | r3 => (parsePTupleItems f r3).map (fun p => (v :: p.1, p.2))
      | ')' :: r2 => some ([v], r2)
      | _ => Option.none
    | Option.none => Option.none

/-- Remaining Python set items. -/
def parsePSetItems : Nat → List Char → Option (List PyVal × List Char)
  | 0, _ => Option.none
  | f + 1, cs =>
    match parsePVal f cs with
    | some (v, r) =>
      match skipJWs r with
      | ',' :: r2 =>
        match skipJWs r2 with
        | '\x7d' :: r3 => some ([v], r3)
        | r3 => (parsePSetItems f r3).map (fun p => (v :: p.1, p.2))
      | '\x7d' :: r2 => some ([v], r2)
      | _ => Option.none
    | Option.none => Option.none

/-- Remaining Python dict `key : value` pairs. -/
def parsePPairs : Nat → List Char → Option (List (PyVal × PyVal) × List Char)
  | 0, _ => Option.none
  | f + 1, cs =>
    match parsePVal f cs with
    | some (k, r) =>
      match skipJWs r with
      | ':' :: r2 =>
        match parsePVal f (skipJWs r2) with
        | some (v, r3) =>
          match skipJWs r3 with
          | ',' :: r4 =>
            match skipJWs r4 with
            | '\x7d' :: r5 => some ([(k, v)], r5)
            | r5 => (parsePPairs f r5).map (fun p => ((k, v) :: p.1, p.2))
          | '\x7d' :: r4 => some ([(k, v)], r4)
          | _ => Option.none
        | Option.none => Option.none
      | _ => Option.none
    | Option.none => Option.none

end

/-- Model of `ast.literal_eval` on a character list: CPython lstrips spaces and tabs,
parses one expression in eval mode, and tolerates trailing whitespace. -/
def literal_evalC (cs : List Char) : Option PyVal :=
  let cs1 := cs.dropWhile (fun c => c = ' ' || c = '\t')
  match parsePVal (2 * cs.length + 8) cs1 with
  | some (v, r) => if skipJWs r = [] then some v else Option.none
  | Option.none => Option.none

def literal_eval (s : String) : Option PyVal := literal_evalC s.data

/-- The backtick character. -/
def tickC : Char := Char.ofNat 96

/-- Lazy `(.*?)` followed by a literal triple backtick (with `re.DOTALL`):
split at the first triple-backtick occurrence, or fail if there is none. -/
def takeUntilTriple : List Char → Option (List Char × List Char)
  | [] => Option.none
  | c :: t =>
    if c = tickC then
      if listStartsWith [tickC, tickC] t then some ([], t.drop 2)
      else (takeUntilTriple t).map (fun p => (c :: p.1, p.2))
    else (takeUntilTriple t).map (fun p => (c :: p.1, p.2))

/-- After the opening backticks and an optional tag: the regex requires a
literal newline, then lazily captures up to the closing triple backtick. -/
def fenceTail (cs : List Char) : Option (List Char) :=
  match cs with
  | '\n' :: t => (takeUntilTriple t).map (fun p => p.1)
  | _ => Option.none

/-- Attempt the fence regex ```` ```(?:json|python)?\n(.*?)``` ```` at this
exact position, with the regex's backtracking order for the optional tag:
`json` first, then `python`, then no tag. -/
def matchFenceAt (cs : List Char) : Option (List Char) :=
  match cs with
  | a :: b :: c :: t =>
    if a = tickC && b = tickC && c = tickC then
      (if listStartsWith ['j', 's', 'o', 'n'] t then fenceTail (t.drop 4) else Option.none) <|>
      (if listStartsWith ['p', 'y', 't', 'h', 'o', 'n'] t then fenceTail (t.drop 6)
        else Option.none) <|>
      fenceTail t
    else Option.none
  | _ => Option.none

/-- Model of `re.search`: try the fence pattern at each start position from the left;
the first position with a match wins. -/
def searchFence : List Char → Option (List Char)
  | [] => Option.none
  | c :: t => matchFenceAt (c :: t) <|> searchFence t

/-- Lines 76-78: extract the fenced block's inner content if the pattern
matches anywhere, else the whole text; `.strip()` either way. -/
def cleanCandidate (cs : List Char) : List Char :=
  match searchFence cs with
  | some content => pyStrip content
  | Option.none => pyStrip cs

/-- Model of `safe_parse_response` (views.py lines 73-89) on a character list,
returning Python's `(value, error)` pair convention: `(decoded, None)` on
success of either decoding step — note a decoded JSON `null` or Python
`None` yields `(PyVal.none, Option.none)`, indistinguishable from the shape
of a failure — and `(None, detail)` when both steps fail. The detail models
`str(e)` of the `ast.literal_eval` exception; its exact text is not load-
bearing, only that it is a nonempty human-readable message. -/
def safe_parse_core (cs : List Char) : PyVal × Option String :=
  match json_loadsC (cleanCandidate cs), literal_evalC (cleanCandidate cs) with
  | some v, _ => (v, Option.none)
  | Option.none, some v => (v, Option.none)
  | Option.none, Option.none => (PyVal.none, some "malformed node or string")

def safe_parse_response (s : String) : PyVal × Option String :=
  safe_parse_core s.data

/-- The analyze request body: `request.data.get` returns `None` for a
missing key, modelled by `Option`. `username` is the authenticated
requester (`request.user.username`). -/
structure AnalyzeRequest where
  playlist_url : Option String
  syllabus : Option String
  username : String

/-- Outcome of the yt-dlp playlist fetch (views.py lines 107-120), as an
oracle input: the extracted title list, or the exception text. -/
inductive FetchResult where
  | ok (titles : List String)
  | err (msg : String)

/-- Outcome of the Gemini call (lines 137-140), as an oracle input: the raw
response text, or the exception text. A failure while obtaining the text
leaves `raw_output` unassigned in the source, so its `locals()` fallback
`"No response generated."` applies. -/
inductive GenResult where
  | ok (text : String)
  | err (msg : String)

/-- Outcome of the MongoDB `insert_one` (lines 161-173), as an oracle
input. -/
inductive StoreResult where
  | ok
  | err (msg : String)

/-- The three external collaborators the handler can invoke, recorded in
invocation order. -/
inductive ExtCall where
  | fetch
  | model
  | store
deriving DecidableEq

/-- The response bodies the handler can produce: 200 with recommendations,
400 with an error string, or 500 with an error string, optional details,
and optional raw_output. -/
inductive HttpResponse where
  | ok (recommendations : PyVal)
  | badRequest (error : String)
  | serverError (error : String) (details : Option String) (raw_output : Option String)

/-- The `raw_output` field of a response, if present. -/
def rawOutputOf : HttpResponse → Option String
  | HttpResponse.serverError _ _ r => r
  | _ => Option.none

/-- Python truthiness of `request.data.get(...)` for a string field:
falsy iff missing (`None`) or the empty string. No trimming is applied
(the source tests `not playlist_url or not syllabus` directly). -/
def optStrFalsy : Option String → Bool
  | Option.none => true
  | some s => s = ""

/-- Python `str(x)` where `x` is `parse_error` (a string or `None`), used in
the f-string `f"Parse error: {parse_error}"`. -/
def pyStrOfOpt : Option String → String
  | some s => s
  | Option.none => "None"

/-- Model of `PlaylistAnalyzeView.post` (views.py lines 96-176) with the three
external collaborators given as oracle outcomes, returning the HTTP
response together with the list of collaborators actually invoked, in
order. The topic extraction and prompt construction between the fetch and
the model call are pure and do not influence the response shape, and the
model outcome is an oracle, so they do not appear here. -/
def post (req : AnalyzeRequest) (fetchR : FetchResult) (genR : GenResult)
    (storeR : StoreResult) : HttpResponse × List ExtCall :=
  if optStrFalsy req.playlist_url || optStrFalsy req.syllabus then
    (HttpResponse.badRequest "playlist_url and syllabus are required.", [])
  else
    match fetchR with
    | FetchResult.err e =>
      (HttpResponse.serverError ("Error extracting playlist: " ++ e) Option.none Option.none,
        [ExtCall.fetch])
    | FetchResult.ok _titles =>
      match genR with
      | GenResult.err m =>
        (HttpResponse.serverError "Gemini API failed or returned invalid output."
          (some m) (some "No response generated."), [ExtCall.fetch, ExtCall.model])
      | GenResult.ok raw =>
        if (safe_parse_response raw).1.isNoneV then
          (HttpResponse.serverError "Gemini API failed or returned invalid output."
            (some ("Parse error: " ++ pyStrOfOpt (safe_parse_response raw).2))
            (some raw), [ExtCall.fetch, ExtCall.model])
        else
          match storeR with
          | StoreResult.err m =>
            (HttpResponse.serverError ("MongoDB save failed: " ++ m) Option.none Option.none,
              [ExtCall.fetch, ExtCall.model, ExtCall.store])
          | StoreResult.ok =>
            (HttpResponse.ok (safe_parse_response raw).1,
              [ExtCall.fetch, ExtCall.model, ExtCall.store])

/-- A valid concrete request used to exercise the later pipeline stages. -/
def req0 : AnalyzeRequest := ⟨some "u", some "a b", "user"⟩

/-- A recommendation record, `\x7btopic, videos\x7d`, as in the spec's data
model. -/
structure Recommendation where
  topic : String
  videos : List String

/-- The Python value a recommendation record decodes to. -/
def recToVal (r : Recommendation) : PyVal :=
  PyVal.dict [(PyVal.str "topic", PyVal.str r.topic),
    (PyVal.str "videos", PyVal.list (r.videos.map PyVal.str))]

/-- The Python value a record list decodes to. -/
def recsToVal (rs : List Recommendation) : PyVal :=
  PyVal.list (rs.map recToVal)

/-- Lower-case hex digit for `n < 16`. -/
def hexDigC (n : Nat) : Char := Char.ofNat (if n < 10 then 48 + n else 87 + n)

/-- A `\uXXXX` escape for a character (used for code points below 0x10000;
the serializers below only apply it to control characters and the
backtick). -/
def uEsc (c : Char) : List Char :=
  ['\\', 'u', hexDigC (c.toNat / 4096), hexDigC (c.toNat / 256 % 16),
    hexDigC (c.toNat / 16 % 16), hexDigC (c.toNat % 16)]

/-- JSON serialization of one string character: quote and backslash get
named escapes; control characters and the backtick get `\uXXXX` (escaping
the backtick is legal JSON and keeps the serialized text free of backticks,
so the fence regex can never split it early); everything else is emitted
raw. -/
def escJChar (c : Char) : List Char :=
  if c = '\"' then ['\\', '\"']
  else if c = '\\' then ['\\', '\\']
  else if c = tickC || c.toNat < 32 then uEsc c
  else [c]

def escJ : List Char → List Char
  | [] => []
  | c :: t => escJChar c ++ escJ t

/-- A JSON string literal. -/
def jstr (s : String) : List Char := '\"' :: (escJ s.data ++ ['\"'])

/-- The items of a JSON array of strings, rendered with `", "` separators,
including the closing bracket. -/
def jitemsStr : List String → List Char
  | [] => [']']
  | [x] => jstr x ++ [']']
  | x :: y :: t => jstr x ++ ',' :: ' ' :: jitemsStr (y :: t)

def jarrStr (xs : List String) : List Char := '[' :: jitemsStr xs

/-- One record as a JSON object `\x7b"topic": ..., "videos": [...]\x7d`. -/
def jrec (r : Recommendation) : List Char :=
  '\x7b' :: '\"' :: 't' :: 'o' :: 'p' :: 'i' :: 'c' :: '\"' :: ':' :: ' ' ::
    (jstr r.topic ++
      (',' :: ' ' :: '\"' :: 'v' :: 'i' :: 'd' :: 'e' :: 'o' :: 's' :: '\"' :: ':' :: ' ' ::
        (jarrStr r.videos ++ ['\x7d'])))

/-- The items of the top-level JSON array of records, including the closing
bracket. -/
def jrecItems : List Recommendation → List Char
  | [] => [']']
  | [r] => jrec r ++ [']']
  | r :: s :: t => jrec r ++ ',' :: ' ' :: jrecItems (s :: t)

/-- JSON serialization of a record list. -/
def jrecs (rs : List Recommendation) : List Char := '[' :: jrecItems rs

/-- The record list serialized as a fenced JSON block: triple backticks,
`json` tag, newline, the JSON body, newline, closing triple backticks. -/
def serializeJsonFenced (rs : List Recommendation) : String :=
  String.mk (tickC :: tickC :: tickC :: 'j' :: 's' :: 'o' :: 'n' :: '\n' ::
    (jrecs rs ++ '\n' :: tickC :: tickC :: tickC :: []))

/-- Python-literal serialization of one string character, for single-quoted
string literals: backslash and the single quote get named escapes; control
characters and the backtick get `\uXXXX` (a legal Python string escape);
everything else is emitted raw. -/
def escPChar (c : Char) : List Char :=
  if c = aposC then ['\\', aposC]
  else if c = '\\' then ['\\', '\\']
  else if c = tickC || c.toNat < 32 then uEsc c
  else [c]

def escP : List Char → List Char
  | [] => []
  | c :: t => escPChar c ++ escP t

/-- A single-quoted Python string literal. -/
def pstr (s : String) : List Char := aposC :: (escP s.data ++ [aposC])

def pitemsStr : List String → List Char
  | [] => [']']
  | [x] => pstr x ++ [']']
  | x :: y :: t => pstr x ++ ',' :: ' ' :: pitemsStr (y :: t)

def parrStr (xs : List String) : List Char := '[' :: pitemsStr xs

/-- One record as a Python dict literal with single-quoted strings. -/
def prec (r : Recommendation) : List Char :=
  '\x7b' :: aposC :: 't' :: 'o' :: 'p' :: 'i' :: 'c' :: aposC :: ':' :: ' ' ::
    (pstr r.topic ++
      (',' :: ' ' :: aposC :: 'v' :: 'i' :: 'd' :: 'e' :: 'o' :: 's' :: aposC :: ':' :: ' ' ::
        (parrStr r.videos ++ ['\x7d'])))

def precItems : List Recommendation → List Char
  | [] => [']']
  | [r] => prec r ++ [']']
  | r :: s :: t => prec r ++ ',' :: ' ' :: precItems (s :: t)

/-- Python-literal serialization of a record list. -/
def precs (rs : List Recommendation) : List Char := '[' :: precItems rs

/-- The record list serialized as a fenced Python-literal block with
single-quoted strings: triple backticks, `python` tag, newline, the body,
newline, closing triple backticks. -/
def serializePyFenced (rs : List Recommendation) : String :=
  String.mk (tickC :: tickC :: tickC :: 'p' :: 'y' :: 't' :: 'h' :: 'o' :: 'n' :: '\n' ::
    (precs rs ++ '\n' :: tickC :: tickC :: tickC :: []))

/-- Fuel budget sufficient to parse a rendered record list. -/
def needJ : List Recommendation → Nat
  | [] => 1
  | r :: t => r.videos.length + 8 + needJ t

/-- No character of the list is a backtick (Boolean form). -/
def noTickB (cs : List Char) : Bool := cs.all (fun c => !(c == tickC))

/-- Fuel budget sufficient to literal-parse a rendered record list. -/
def needP : List Recommendation → Nat
  | [] => 1
  | r :: t => r.videos.length + 8 + needP t

theorem intercalate_go_append (sep : String) (r : List String) :
    ∀ a b : String,
      String.intercalate.go (a ++ b) sep r = a ++ String.intercalate.go b sep r := by
  induction r with
  | nil => intro a b; rfl
  | cons y t ih =>
    intro a b
    show String.intercalate.go (a ++ b ++ sep ++ y) sep t =
      a ++ String.intercalate.go (b ++ sep ++ y) sep t
    rw [String.append_assoc a b sep, String.append_assoc a (b ++ sep) y, ih]

theorem pyJoin_cons_eq_go (sep : String) (t : List String) :
    ∀ x : String, pyJoin sep (x :: t) = String.intercalate.go x sep t := by
  induction t with
  | nil => intro x; rfl
  | cons y r ih =>
    intro x
    show x ++ sep ++ pyJoin sep (y :: r) = String.intercalate.go (x ++ sep ++ y) sep r
    rw [ih y, intercalate_go_append sep r (x ++ sep) y]

theorem pyJoin_eq_intercalate (sep : String) (xs : List String) :
    pyJoin sep xs = String.intercalate sep xs := by
  cases xs with
  | nil => rfl
  | cons x t => exact pyJoin_cons_eq_go sep t x

theorem numberLines_eq_enumFrom (i : Nat) (ts : List String) :
    numberLines i ts =
      (List.enumFrom i ts).map (fun p => toString (p.1 + 1) ++ ". " ++ p.2) := by
  induction ts generalizing i with
  | nil => rfl
  | cons t r ih => rw [numberLines, ih]; rfl

/-- C9: the prompt builder is a pure function of its two inputs (it is a
Lean function, so identical inputs give byte-identical output), equal to the
fixed preamble, followed by one `- <topic>` bullet per topic in input order,
a blank line, the `Video Titles:` header, and one `<index>. <title>` line
per title numbered from 1 in input order. Both sections are`List.map`s of
the input sequences (composed with `enum` for the numbering), so neither
sequence is reordered, deduplicated, or truncated. -/
theorem build_prompt_c9 (topics titles : List String) :
    build_prompt topics titles =
      promptPreamble ++
      String.intercalate "\n" (topics.map (fun t => "- " ++ t)) ++
      "\n\n" ++ "Video Titles:\n" ++
      String.intercalate "\n"
        (titles.enum.map (fun p => toString (p.1 + 1) ++ ". " ++ p.2)) := by
  rw [build_prompt, pyJoin_eq_intercalate, pyJoin_eq_intercalate,
    numberLines_eq_enumFrom]
  rfl

/-- C2 (counterexample): the strict structured-decode step is a bare
`json.loads` with no schema validation, so on the candidate
`[{"nope": 1}]` — an array whose object has neither a `topic` nor a
`videos` field — the step succeeds with the decoded value instead of
failing as the claim states. -/
theorem json_step_c2_cex :
    json_loadsC (cleanCandidate ("[\x7b\"nope\": 1\x7d]".data)) =
      some (PyVal.list [PyVal.dict [(PyVal.str "nope", PyVal.int 1)]]) := rfl

/-- C2 (amended): the strict step succeeds exactly when the candidate text
decodes as JSON, of any shape — no per-object validation of `topic`/
`videos` fields is performed — and whenever it succeeds its value is
returned directly, so control falls to the permissive fallback only on a
JSON decode failure. -/
theorem json_step_c2_amended (raw : String) (v : PyVal)
    (h : json_loadsC (cleanCandidate raw.data) = some v) :
    safe_parse_response raw = (v, Option.none) := by
  simp [safe_parse_response, safe_parse_core, h]

/-- Witness for C2: the amended theorem applied to the schema-invalid
candidate `[{"nope": 1}]`. -/
theorem json_step_c2_witness :
    safe_parse_response "[\x7b\"nope\": 1\x7d]" =
      (PyVal.list [PyVal.dict [(PyVal.str "nope", PyVal.int 1)]], Option.none) :=
  json_step_c2_amended "[\x7b\"nope\": 1\x7d]"
    (PyVal.list [PyVal.dict [(PyVal.str "nope", PyVal.int 1)]]) rfl

/-- C3 (counterexample): the permissive fallback is `ast.literal_eval`,
which accepts the tuple expression `(1, 2)` — neither an array, nor a
mapping with string-literal values, nor a quoted string, i.e. outside the
claim's closed literal-data grammar — instead of rejecting it: JSON
decoding fails on it, and the fallback returns the decoded tuple. -/
theorem literal_step_c3_cex :
    json_loads "(1, 2)" = Option.none ∧
    literal_eval "(1, 2)" = some (PyVal.tuple [PyVal.int 1, PyVal.int 2]) ∧
    safe_parse_response "(1, 2)" =
      (PyVal.tuple [PyVal.int 1, PyVal.int 2], Option.none) :=
  ⟨rfl, rfl, rfl⟩

/-- C3 (amended): the fallback evaluates Python literal expressions:
besides arrays, string mappings and quoted strings it accepts boolean and
`None` constants, numbers, tuples, sets, and mappings with non-string
literal values; it does reject function calls, attribute access,
subscripts, and plain identifiers, as `ast.literal_eval` raises on those
node kinds. -/
theorem literal_step_c3_amended :
    literal_eval "True" = some (PyVal.bool true) ∧
    literal_eval "None" = some PyVal.none ∧
    literal_eval "5" = some (PyVal.int 5) ∧
    literal_eval "(1, 2)" = some (PyVal.tuple [PyVal.int 1, PyVal.int 2]) ∧
    literal_eval "\x7b\x27a\x27: 1\x7d" = some (PyVal.dict [(PyVal.str "a", PyVal.int 1)]) ∧
    literal_eval "\x7b1, 2\x7d" = some (PyVal.set [PyVal.int 1, PyVal.int 2]) ∧
    literal_eval "foo(1)" = Option.none ∧
    literal_eval "os.system" = Option.none ∧
    literal_eval "x" = Option.none ∧
    literal_eval "__import__(\x27os\x27)" = Option.none ∧
    literal_eval "[1][0]" = Option.none :=
  ⟨rfl, rfl, rfl, rfl, rfl, rfl, rfl, rfl, rfl, rfl, rfl⟩

/-- C4: `safe_parse_response` is total — for every input it returns either
`(decoded value, no error)` or the failure pair `(None, nonempty detail)`
(never an unhandled fault, since the source wraps both decode attempts in
`except Exception`); in particular `"not json at all"` produces the failure
pair, and the handler's parse-failure response then carries the original
raw text unmodified in `raw_output`. -/
theorem safe_parse_c4_total :
    (∀ raw : String,
      (∃ v, safe_parse_response raw = (v, Option.none)) ∨
      (∃ d, safe_parse_response raw = (PyVal.none, some d) ∧ d ≠ "")) ∧
    safe_parse_response "not json at all" =
      (PyVal.none, some "malformed node or string") ∧
    (∀ st : StoreResult,
      post req0 (FetchResult.ok ["t"]) (GenResult.ok "not json at all") st =
        (HttpResponse.serverError "Gemini API failed or returned invalid output."
          (some "Parse error: malformed node or string") (some "not json at all"),
          [ExtCall.fetch, ExtCall.model])) := by
  refine ⟨?_, rfl, fun st => rfl⟩
  intro raw
  simp only [safe_parse_response, safe_parse_core]
  cases hj : json_loadsC (cleanCandidate raw.data) with
  | some v => exact Or.inl ⟨v, rfl⟩
  | none =>
    cases hl : literal_evalC (cleanCandidate raw.data) with
    | some v => exact Or.inl ⟨v, rfl⟩
    | none => exact Or.inr ⟨"malformed node or string", rfl, by decide⟩

/-- C6 (counterexample): with the fetch, model call and parse all
succeeding (raw output `"[]"` decodes to the empty list) but the store
write failing, the handler returns the MongoDB 500 error, not the
already-computed recommendations. -/
theorem store_failure_c6_cex :
    (post req0 (FetchResult.ok ["t"]) (GenResult.ok "[]") (StoreResult.err "boom")).1 =
      HttpResponse.serverError "MongoDB save failed: boom" Option.none Option.none :=
  rfl

/-- C6 (amended): whenever the parse step has succeeded with a non-`None`
value and the store write fails, the handler returns the storage 500 error
`MongoDB save failed: <detail>` (after invoking all three collaborators),
rather than returning the recommendations. -/
theorem store_failure_c6_amended (titles : List String) (raw msg : String)
    (h : (safe_parse_response raw).1.isNoneV = false) :
    post req0 (FetchResult.ok titles) (GenResult.ok raw) (StoreResult.err msg) =
      (HttpResponse.serverError ("MongoDB save failed: " ++ msg) Option.none Option.none,
        [ExtCall.fetch, ExtCall.model, ExtCall.store]) := by
  simp [post, req0, h, optStrFalsy]

/-- Witness for C6: the amended theorem at raw output `"[]"`. -/
theorem store_failure_c6_witness :
    post req0 (FetchResult.ok ["t"]) (GenResult.ok "[]") (StoreResult.err "boom") =
      (HttpResponse.serverError ("MongoDB save failed: " ++ "boom") Option.none Option.none,
        [ExtCall.fetch, ExtCall.model, ExtCall.store]) :=
  store_failure_c6_amended ["t"] "[]" "boom" rfl

/-- C7 (counterexample): on a model-invocation failure — not a parse
failure — the 500 body still contains a `raw_output` field, holding the
source's `locals()` placeholder `"No response generated."`, contradicting
the claim that `raw_output` is present only for parse failures. -/
theorem raw_output_c7_cex :
    rawOutputOf (post req0 (FetchResult.ok ["t"]) (GenResult.err "boom") StoreResult.ok).1 =
      some "No response generated." := rfl

/-- C7 (amended): `raw_output` is present exactly for failures of the model
step — parse failures carry the raw model text, and model-invocation
failures carry the placeholder `"No response generated."` — while playlist
fetch failures, storage failures, validation failures and success responses
omit it. -/
theorem raw_output_c7_amended (e m s : String) (g : GenResult) (st : StoreResult)
    (f : FetchResult) :
    rawOutputOf (post req0 (FetchResult.err e) g st).1 = Option.none ∧
    rawOutputOf (post req0 (FetchResult.ok ["t"]) (GenResult.err m) st).1 =
      some "No response generated." ∧
    rawOutputOf (post req0 (FetchResult.ok ["t"]) (GenResult.ok "oops") st).1 =
      some "oops" ∧
    rawOutputOf (post req0 (FetchResult.ok ["t"]) (GenResult.ok "[]") (StoreResult.err s)).1 =
      Option.none ∧
    rawOutputOf (post req0 (FetchResult.ok ["t"]) (GenResult.ok "[]") StoreResult.ok).1 =
      Option.none ∧
    rawOutputOf (post ⟨Option.none, some "a b", "user"⟩ f g st).1 = Option.none := by
  refine ⟨rfl, rfl, rfl, rfl, rfl, ?_⟩
  cases f <;> cases g <;> cases st <;> rfl

/-- C8 (counterexample): a whitespace-only `playlist_url` is truthy in
Python, so it passes validation — the handler proceeds to invoke the
playlist fetch (the call list contains `fetch`) and returns the fetch
error, not the 400 validation response the claim requires for values that
are empty after trimming. -/
theorem validation_c8_cex :
    post ⟨some " ", some "a b", "user"⟩ (FetchResult.err "E") (GenResult.ok "[]")
        StoreResult.ok =
      (HttpResponse.serverError "Error extracting playlist: E" Option.none Option.none,
        [ExtCall.fetch]) ∧
    (post ⟨some " ", some "a b", "user"⟩ (FetchResult.err "E") (GenResult.ok "[]")
        StoreResult.ok).1 ≠
      HttpResponse.badRequest "playlist_url and syllabus are required." :=
  ⟨rfl, fun h => HttpResponse.noConfusion h⟩

/-- C8 (amended): the handler rejects a request whose `playlist_url` or
`syllabus` is missing or the empty string — Python truthiness, with no
trimming, so whitespace-only values are not rejected — with the exact 400
message `playlist_url and syllabus are required.`, invoking none of the
playlist source, the model, or the store. -/
theorem validation_c8_amended (url syl : Option String) (user : String)
    (f : FetchResult) (g : GenResult) (st : StoreResult)
    (h : (optStrFalsy url || optStrFalsy syl) = true) :
    post ⟨url, syl, user⟩ f g st =
      (HttpResponse.badRequest "playlist_url and syllabus are required.", []) := by
  simp [post, h]

/-- Witness for C8: the amended theorem at `playlist_url = ""`. -/
theorem validation_c8_witness :
    post ⟨some "", some "a b", "user"⟩ (FetchResult.ok ["t"]) (GenResult.ok "[]")
        StoreResult.ok =
      (HttpResponse.badRequest "playlist_url and syllabus are required.", []) :=
  validation_c8_amended (some "") (some "a b") "user" (FetchResult.ok ["t"])
    (GenResult.ok "[]") StoreResult.ok rfl

/-- C10: when the model's raw output decodes to the null value — raw text
`"null"` (JSON), `"None"` (Python literal), or a fenced block holding
`null` — the decode itself succeeds with no error, but the handler's
`if parsed_response is None` branch cannot distinguish this from a failed
parse, so it reports the parse-failure 500 with `raw_output` attached (and
`details` showing `Parse error: None`, the stringified `None` error). -/
theorem null_output_c10 (st : StoreResult) :
    safe_parse_response "null" = (PyVal.none, Option.none) ∧
    post req0 (FetchResult.ok ["t"]) (GenResult.ok "null") st =
      (HttpResponse.serverError "Gemini API failed or returned invalid output."
        (some "Parse error: None") (some "null"), [ExtCall.fetch, ExtCall.model]) ∧
    post req0 (FetchResult.ok ["t"]) (GenResult.ok "None") st =
      (HttpResponse.serverError "Gemini API failed or returned invalid output."
        (some "Parse error: None") (some "None"), [ExtCall.fetch, ExtCall.model]) ∧
    post req0 (FetchResult.ok ["t"]) (GenResult.ok "```json\nnull\n```") st =
      (HttpResponse.serverError "Gemini API failed or returned invalid output."
        (some "Parse error: None") (some "```json\nnull\n```"),
        [ExtCall.fetch, ExtCall.model]) :=
  ⟨rfl, rfl, rfl, rfl⟩

theorem string_mk_data (s : String) : String.mk s.data = s := by
  cases s
  rfl

theorem hexDigVal_hexDigC (n : Nat) (h : n < 16) : hexDigVal (hexDigC n) = some n := by
  interval_cases n <;> rfl

theorem hex4Val_uEsc (c : Char) (h : c.toNat < 65536) :
    hex4Val (hexDigC (c.toNat / 4096)) (hexDigC (c.toNat / 256 % 16))
      (hexDigC (c.toNat / 16 % 16)) (hexDigC (c.toNat % 16)) = some c.toNat := by
  have harith : c.toNat / 4096 * 4096 + c.toNat / 256 % 16 * 256 + c.toNat / 16 % 16 * 16 +
      c.toNat % 16 = c.toNat := by omega
  rw [hex4Val, hexDigVal_hexDigC _ (by omega), hexDigVal_hexDigC _ (by omega),
    hexDigVal_hexDigC _ (by omega), hexDigVal_hexDigC _ (by omega)]
  show some (c.toNat / 4096 * 4096 + c.toNat / 256 % 16 * 256 + c.toNat / 16 % 16 * 16 +
      c.toNat % 16) = some c.toNat
  rw [harith]

theorem parseJStr_uEsc (c : Char) (h : c.toNat < 65536) (X : List Char) :
    parseJStr (uEsc c ++ X) = (parseJStr X).map (fun p => (c :: p.1, p.2)) := by
  show parseJStr ('\\' :: 'u' :: hexDigC (c.toNat / 4096) :: hexDigC (c.toNat / 256 % 16) ::
    hexDigC (c.toNat / 16 % 16) :: hexDigC (c.toNat % 16) :: X) = _
  rw [parseJStr.eq_def]
  show ((match hex4Val (hexDigC (c.toNat / 4096)) (hexDigC (c.toNat / 256 % 16))
      (hexDigC (c.toNat / 16 % 16)) (hexDigC (c.toNat % 16)) with
    | some n => (parseJStr X).map (fun p => (Char.ofNat n :: p.1, p.2))
    | Option.none => Option.none) : Option (List Char × List Char)) = _
  rw [hex4Val_uEsc c h]
  show (parseJStr X).map (fun p => (Char.ofNat c.toNat :: p.1, p.2)) = _
  rw [Char.ofNat_toNat]

theorem parseJStr_escJ (cs : List Char) (X : List Char) :
    parseJStr (escJ cs ++ ('\"' :: X)) = some (cs, X) := by
  induction cs with
  | nil =>
    show parseJStr ('\"' :: X) = some ([], X)
    rw [parseJStr.eq_def]
    exact rfl
  | cons c t ih =>
    show parseJStr ((escJChar c ++ escJ t) ++ ('\"' :: X)) = some (c :: t, X)
    rw [List.append_assoc, escJChar]
    by_cases h1 : c = '\"'
    · subst h1
      rw [if_pos rfl]
      show parseJStr ('\\' :: '\"' :: (escJ t ++ ('\"' :: X))) = _
      rw [parseJStr.eq_def]
      show (parseJStr (escJ t ++ ('\"' :: X))).map (fun p => ('\"' :: p.1, p.2)) = _
      rw [ih]
      rfl
    · rw [if_neg h1]
      by_cases h2 : c = '\\'
      · subst h2
        rw [if_pos rfl]
        show parseJStr ('\\' :: '\\' :: (escJ t ++ ('\"' :: X))) = _
        rw [parseJStr.eq_def]
        show (parseJStr (escJ t ++ ('\"' :: X))).map (fun p => ('\\' :: p.1, p.2)) = _
        rw [ih]
        rfl
      · rw [if_neg h2]
        by_cases h3 : c = tickC || c.toNat < 32
        · rw [if_pos h3, parseJStr_uEsc c ?bound, ih]
          · rfl
          case bound =>
            rcases Bool.or_eq_true_iff.mp h3 with h | h
            · rw [show c = tickC from by exact_mod_cast of_decide_eq_true h]; decide
            · have : c.toNat < 32 := by simpa using h
              omega
        · rw [if_neg h3]
          have hc : ¬ c.toNat < 32 := by
            intro hlt
            exact h3 (by simp [hlt])
          show parseJStr (c :: (escJ t ++ ('\"' :: X))) = some (c :: t, X)
          rw [parseJStr.eq_def]
          simp only [if_neg h1, if_neg h2, if_neg hc, ih]
          rfl

theorem parseJVal_jstr (f : Nat) (s : String) (X : List Char) (h : 1 ≤ f) :
    parseJVal f (jstr s ++ X) = some (PyVal.str s, X) := by
  cases f with
  | zero => omega
  | succ g =>
    show parseJVal (g + 1) ('\"' :: ((escJ s.data ++ ['\"']) ++ X)) = _
    rw [List.append_assoc]
    show parseJVal (g + 1) ('\"' :: (escJ s.data ++ ('\"' :: X))) = _
    rw [parseJVal.eq_def]
    show (parseJStr (escJ s.data ++ ('\"' :: X))).map
      (fun p => (PyVal.str (String.mk p.1), p.2)) = _
    rw [parseJStr_escJ]
    show some (PyVal.str (String.mk s.data), X) = _
    rw [string_mk_data]

theorem skipJWs_notWs (c : Char) (X : List Char) (h : isJWsChar c = false) :
    skipJWs (c :: X) = c :: X := by
  simp [skipJWs, List.dropWhile_cons, h]

theorem skipJWs_space (X : List Char) : skipJWs (' ' :: X) = skipJWs X := rfl

theorem skipJWs_jitems (y : String) (t : List String) (X : List Char) :
    skipJWs (jitemsStr (y :: t) ++ X) = jitemsStr (y :: t) ++ X := by
  cases t with
  | nil => exact skipJWs_notWs _ _ (by decide)
  | cons s t2 => exact skipJWs_notWs _ _ (by decide)

theorem parseJItems_succ (g : Nat) (cs : List Char) :
    parseJItems (g + 1) cs =
      match parseJVal g cs with
      | some (v, r) =>
        (match skipJWs r with
          | ',' :: r2 => (parseJItems g (skipJWs r2)).map (fun p => (v :: p.1, p.2))
          | ']' :: r2 => some ([v], r2)
          | _ => Option.none)
      | Option.none => Option.none := by
  rw [parseJItems.eq_def]

theorem parseJVal_arr (g : Nat) (X : List Char) :
    parseJVal (g + 1) ('[' :: X) =
      (match skipJWs X with
        | ']' :: r => some (PyVal.list [], r)
        | t1 => (parseJItems g t1).map (fun p => (PyVal.list p.1, p.2))) := by
  rw [parseJVal.eq_def]
  exact rfl

theorem parseJItems_jitems (vs : List String) :
    ∀ (f : Nat) (X : List Char), vs.length + 1 ≤ f → vs ≠ [] →
      parseJItems f (jitemsStr vs ++ X) = some (vs.map PyVal.str, X) := by
  induction vs with
  | nil => intro f X h hne; exact absurd rfl hne
  | cons x t ih =>
    intro f X h _
    cases f with
    | zero => omega
    | succ g =>
      cases t with
      | nil =>
        show parseJItems (g + 1) ((jstr x ++ [']']) ++ X) = some ([PyVal.str x], X)
        rw [List.append_assoc, parseJItems_succ,
          parseJVal_jstr g x ([']'] ++ X)
            (by simp only [List.length_cons, List.length_nil] at h; omega)]
        exact rfl
      | cons y t2 =>
        show parseJItems (g + 1)
          ((jstr x ++ (',' :: ' ' :: jitemsStr (y :: t2))) ++ X) =
          some (PyVal.str x :: (y :: t2).map PyVal.str, X)
        rw [List.append_assoc, parseJItems_succ,
          parseJVal_jstr g x ((',' :: ' ' :: jitemsStr (y :: t2)) ++ X)
            (by simp only [List.length_cons] at h; omega)]
        show (parseJItems g (skipJWs (' ' :: (jitemsStr (y :: t2) ++ X)))).map
          (fun p => (PyVal.str x :: p.1, p.2)) = _
        rw [skipJWs_space, skipJWs_jitems,
          ih g X (by simp only [List.length_cons] at h ⊢; omega) (by simp)]
        rfl

theorem parseJVal_jarr (f : Nat) (vs : List String) (X : List Char)
    (h : vs.length + 2 ≤ f) :
    parseJVal f (jarrStr vs ++ X) = some (PyVal.list (vs.map PyVal.str), X) := by
  cases f with
  | zero => omega
  | succ g =>
    show parseJVal (g + 1) ('[' :: (jitemsStr vs ++ X)) = _
    rw [parseJVal_arr]
    cases vs with
    | nil => exact rfl
    | cons y t =>
      cases t with
      | nil =>
        show (parseJItems g (jitemsStr [y] ++ X)).map (fun p => (PyVal.list p.1, p.2)) = _
        rw [parseJItems_jitems [y] g X
          (by simp only [List.length_cons, List.length_nil] at h ⊢; omega) (by simp)]
        rfl
      | cons s t2 =>
        show (parseJItems g (jitemsStr (y :: s :: t2) ++ X)).map
          (fun p => (PyVal.list p.1, p.2)) = _
        rw [parseJItems_jitems (y :: s :: t2) g X
          (by simp only [List.length_cons] at h ⊢; omega) (by simp)]
        rfl

theorem parseJVal_obj (g : Nat) (X : List Char) :
    parseJVal (g + 1) ('\x7b' :: X) =
      (match skipJWs X with
        | '\x7d' :: r => some (PyVal.dict [], r)
        | t1 => (parseJPairs g t1).map (fun p => (PyVal.dict p.1, p.2))) := by
  rw [parseJVal.eq_def]
  exact rfl

theorem parseJPairs_key (g : Nat) (X : List Char) :
    parseJPairs (g + 1) ('\"' :: X) =
      (match parseJStr X with
        | some (k, r) =>
          (match skipJWs r with
            | ':' :: r2 =>
              (match parseJVal g (skipJWs r2) with
                | some (v, r3) =>
                  (match skipJWs r3 with
                    | ',' :: r4 =>
                      (parseJPairs g (skipJWs r4)).map
                        (fun p => ((PyVal.str (String.mk k), v) :: p.1, p.2))
                    | '\x7d' :: r4 => some ([(PyVal.str (String.mk k), v)], r4)
                    | _ => Option.none)
                | Option.none => Option.none)
            | _ => Option.none)
        | Option.none => Option.none) := by
  rw [parseJPairs.eq_def]
  exact rfl

theorem parseJVal_jrec (f : Nat) (r : Recommendation) (X : List Char)
    (h : r.videos.length + 6 ≤ f) :
    parseJVal f (jrec r ++ X) = some (recToVal r, X) := by
  obtain ⟨g2, rfl⟩ : ∃ g2, f = g2 + 3 := ⟨f - 3, by omega⟩
  show parseJVal (g2 + 2 + 1) ('\x7b' :: '\"' :: 't' :: 'o' :: 'p' :: 'i' :: 'c' :: '\"' :: ':' :: ' ' ::
    ((jstr r.topic ++
      (',' :: ' ' :: '\"' :: 'v' :: 'i' :: 'd' :: 'e' :: 'o' :: 's' :: '\"' :: ':' :: ' ' ::
        (jarrStr r.videos ++ ['\x7d']))) ++ X)) = some (recToVal r, X)
  simp only [List.cons_append, List.append_assoc, List.nil_append]
  rw [parseJVal_obj]
  show (parseJPairs (g2 + 1 + 1)
      ('\"' :: 't' :: 'o' :: 'p' :: 'i' :: 'c' :: '\"' :: ':' :: ' ' :: (jstr r.topic ++ ',' :: ' ' :: '\"' :: 'v' :: 'i' :: 'd' :: 'e' :: 'o' :: 's' :: '\"' :: ':' :: ' ' :: (jarrStr r.videos ++ '\x7d' :: X)))).map
    (fun p => (PyVal.dict p.1, p.2)) = some (recToVal r, X)
  rw [parseJPairs_key]
  rw [show parseJStr ('t' :: 'o' :: 'p' :: 'i' :: 'c' :: '\"' :: ':' :: ' ' :: (jstr r.topic ++ ',' :: ' ' :: '\"' :: 'v' :: 'i' :: 'd' :: 'e' :: 'o' :: 's' :: '\"' :: ':' :: ' ' :: (jarrStr r.videos ++ '\x7d' :: X))) =
    some (['t', 'o', 'p', 'i', 'c'], ':' :: ' ' :: (jstr r.topic ++ ',' :: ' ' :: '\"' :: 'v' :: 'i' :: 'd' :: 'e' :: 'o' :: 's' :: '\"' :: ':' :: ' ' :: (jarrStr r.videos ++ '\x7d' :: X)))
    from parseJStr_escJ ['t', 'o', 'p', 'i', 'c'] _]
  show Option.map (fun p => (PyVal.dict p.1, p.2))
    (match parseJVal (g2 + 1) (skipJWs (' ' :: (jstr r.topic ++ ',' :: ' ' :: '\"' :: 'v' :: 'i' :: 'd' :: 'e' :: 'o' :: 's' :: '\"' :: ':' :: ' ' :: (jarrStr r.videos ++ '\x7d' :: X)))) with
      | some (v, r3) =>
        match skipJWs r3 with
        | ',' :: r4 =>
          Option.map (fun p => ((PyVal.str (String.mk ['t', 'o', 'p', 'i', 'c']), v) :: p.1, p.2))
            (parseJPairs (g2 + 1) (skipJWs r4))
        | '\x7d' :: r4 => some ([(PyVal.str (String.mk ['t', 'o', 'p', 'i', 'c']), v)], r4)
        | _ => Option.none
      | Option.none => Option.none) = some (recToVal r, X)
  rw [show parseJVal (g2 + 1) (skipJWs (' ' :: (jstr r.topic ++ ',' :: ' ' :: '\"' :: 'v' :: 'i' :: 'd' :: 'e' :: 'o' :: 's' :: '\"' :: ':' :: ' ' :: (jarrStr r.videos ++ '\x7d' :: X)))) =
      some (PyVal.str r.topic, ',' :: ' ' :: '\"' :: 'v' :: 'i' :: 'd' :: 'e' :: 'o' :: 's' :: '\"' :: ':' :: ' ' :: (jarrStr r.videos ++ '\x7d' :: X))
    from parseJVal_jstr (g2 + 1) r.topic (',' :: ' ' :: '\"' :: 'v' :: 'i' :: 'd' :: 'e' :: 'o' :: 's' :: '\"' :: ':' :: ' ' :: (jarrStr r.videos ++ '\x7d' :: X)) (by omega)]
  show Option.map (fun p => (PyVal.dict p.1, p.2))
    (Option.map (fun p => ((PyVal.str (String.mk ['t', 'o', 'p', 'i', 'c']), PyVal.str r.topic) :: p.1, p.2))
      (parseJPairs (g2 + 1)
        ('\"' :: 'v' :: 'i' :: 'd' :: 'e' :: 'o' :: 's' :: '\"' :: ':' :: ' ' :: (jarrStr r.videos ++ '\x7d' :: X)))) =
    some (recToVal r, X)
  rw [parseJPairs_key]
  rw [show parseJStr ('v' :: 'i' :: 'd' :: 'e' :: 'o' :: 's' :: '\"' :: ':' :: ' ' :: (jarrStr r.videos ++ '\x7d' :: X)) =
    some (['v', 'i', 'd', 'e', 'o', 's'], ':' :: ' ' :: (jarrStr r.videos ++ '\x7d' :: X))
    from parseJStr_escJ ['v', 'i', 'd', 'e', 'o', 's'] _]
  show Option.map (fun p => (PyVal.dict p.1, p.2))
    (Option.map (fun p => ((PyVal.str (String.mk ['t', 'o', 'p', 'i', 'c']), PyVal.str r.topic) :: p.1, p.2))
      (match parseJVal g2 (skipJWs (' ' :: (jarrStr r.videos ++ '\x7d' :: X))) with
        | some (v, r3) =>
          match skipJWs r3 with
          | ',' :: r4 =>
            Option.map (fun p => ((PyVal.str (String.mk ['v', 'i', 'd', 'e', 'o', 's']), v) :: p.1, p.2))
              (parseJPairs g2 (skipJWs r4))
          | '\x7d' :: r4 => some ([(PyVal.str (String.mk ['v', 'i', 'd', 'e', 'o', 's']), v)], r4)
          | _ => Option.none
        | Option.none => Option.none)) = some (recToVal r, X)
  rw [show parseJVal g2 (skipJWs (' ' :: (jarrStr r.videos ++ '\x7d' :: X))) =
      some (PyVal.list (r.videos.map PyVal.str), '\x7d' :: X)
    from parseJVal_jarr g2 r.videos ('\x7d' :: X) (by omega)]
  exact rfl

theorem skipJWs_jrecItems (s : Recommendation) (t : List Recommendation) (X : List Char) :
    skipJWs (jrecItems (s :: t) ++ X) = jrecItems (s :: t) ++ X := by
  cases t with
  | nil => exact skipJWs_notWs _ _ (by decide)
  | cons s2 t2 => exact skipJWs_notWs _ _ (by decide)

theorem parseJItems_jrecItems (rs : List Recommendation) :
    ∀ (f : Nat) (X : List Char), needJ rs ≤ f → rs ≠ [] →
      parseJItems f (jrecItems rs ++ X) = some (rs.map recToVal, X) := by
  induction rs with
  | nil => intro f X h hne; exact absurd rfl hne
  | cons r t ih =>
    intro f X h _
    cases f with
    | zero => simp only [needJ] at h; omega
    | succ g =>
      cases t with
      | nil =>
        show parseJItems (g + 1) ((jrec r ++ [']']) ++ X) = some ([recToVal r], X)
        rw [List.append_assoc, parseJItems_succ,
          parseJVal_jrec g r ([']'] ++ X) (by simp only [needJ] at h; omega)]
        exact rfl
      | cons s t2 =>
        show parseJItems (g + 1) ((jrec r ++ (',' :: ' ' :: jrecItems (s :: t2))) ++ X) =
          some (recToVal r :: (s :: t2).map recToVal, X)
        rw [List.append_assoc, parseJItems_succ,
          parseJVal_jrec g r ((',' :: ' ' :: jrecItems (s :: t2)) ++ X)
            (by simp only [needJ] at h; omega)]
        show (parseJItems g (skipJWs (' ' :: (jrecItems (s :: t2) ++ X)))).map
          (fun p => (recToVal r :: p.1, p.2)) = _
        rw [skipJWs_space, skipJWs_jrecItems,
          ih g X (by simp only [needJ] at h ⊢; omega) (by simp)]
        rfl

theorem jstr_len (s : String) : 2 ≤ (jstr s).length := by
  simp [jstr]

theorem jitemsStr_len (vs : List String) :
    2 * vs.length ≤ (jitemsStr vs).length ∧ 1 ≤ (jitemsStr vs).length := by
  induction vs with
  | nil => simp [jitemsStr]
  | cons x t ih =>
    cases t with
    | nil =>
      have := jstr_len x
      show 2 * [x].length ≤ (jstr x ++ [']']).length ∧ 1 ≤ (jstr x ++ [']']).length
      simp only [List.length_append, List.length_cons, List.length_nil]
      omega
    | cons y t2 =>
      have h1 := jstr_len x
      show 2 * (x :: y :: t2).length ≤ (jstr x ++ ',' :: ' ' :: jitemsStr (y :: t2)).length ∧
        1 ≤ (jstr x ++ ',' :: ' ' :: jitemsStr (y :: t2)).length
      simp only [List.length_append, List.length_cons] at ih ⊢
      omega

theorem jrec_len (r : Recommendation) : r.videos.length + 6 ≤ (jrec r).length := by
  have h1 := jstr_len r.topic
  have h2 := jitemsStr_len r.videos
  simp only [jrec, jarrStr, List.length_append, List.length_cons]
  omega

theorem needJ_le (rs : List Recommendation) : needJ rs ≤ 2 * (jrecItems rs).length := by
  induction rs with
  | nil => simp [needJ, jrecItems]
  | cons r t ih =>
    have h1 := jrec_len r
    cases t with
    | nil =>
      show needJ [r] ≤ 2 * (jrec r ++ [']']).length
      simp only [needJ, List.length_append, List.length_cons, List.length_nil]
      omega
    | cons s t2 =>
      show needJ (r :: s :: t2) ≤ 2 * (jrec r ++ ',' :: ' ' :: jrecItems (s :: t2)).length
      simp only [needJ, List.length_append, List.length_cons] at ih ⊢
      omega

theorem json_loadsC_jrecs (rs : List Recommendation) :
    json_loadsC (jrecs rs) = some (recsToVal rs) := by
  cases rs with
  | nil => rfl
  | cons r t =>
    obtain ⟨Z, hZ⟩ : ∃ Z, jrecItems (r :: t) = jrec r ++ Z := by
      cases t with
      | nil => exact ⟨[']'], rfl⟩
      | cons s t2 => exact ⟨',' :: ' ' :: jrecItems (s :: t2), rfl⟩
    obtain ⟨g, hg⟩ : ∃ g, 2 * (jrecs (r :: t)).length + 8 = g + 1 :=
      ⟨2 * (jrecs (r :: t)).length + 7, by omega⟩
    have hitems := parseJItems_jrecItems (r :: t) g []
      (by
        have := needJ_le (r :: t)
        simp only [jrecs, List.length_cons] at hg
        omega)
      (by simp)
    rw [List.append_nil] at hitems
    rw [json_loadsC, hg,
      show skipJWs (jrecs (r :: t)) = '[' :: jrecItems (r :: t)
        from skipJWs_notWs _ _ (by decide),
      parseJVal_arr,
      show skipJWs (jrecItems (r :: t)) = jrecItems (r :: t)
        from hZ ▸ skipJWs_notWs '\x7b' _ (by decide)]
    rw [hZ] at hitems ⊢
    show (match (parseJItems g (jrec r ++ Z)).map (fun p => (PyVal.list p.1, p.2)) with
      | some (v, rest) => if skipJWs rest = [] then some v else Option.none
      | Option.none => Option.none) = some (recsToVal (r :: t))
    rw [hitems]
    exact rfl

theorem noTickB_cons (c : Char) (cs : List Char) (hc : (c == tickC) = false)
    (h : noTickB cs = true) : noTickB (c :: cs) = true := by
  simp only [noTickB, List.all_cons, Bool.and_eq_true]
  exact ⟨by rw [hc]; rfl, h⟩

theorem noTickB_append (a b : List Char) (ha : noTickB a = true) (hb : noTickB b = true) :
    noTickB (a ++ b) = true := by
  simp only [noTickB, List.all_append, Bool.and_eq_true]
  exact ⟨ha, hb⟩

theorem hexDigC_noTick (n : Nat) (h : n < 16) : (hexDigC n == tickC) = false := by
  interval_cases n <;> rfl

theorem uEsc_noTickB (c : Char) (h : c.toNat < 65536) : noTickB (uEsc c) = true := by
  refine noTickB_cons _ _ (by rfl) (noTickB_cons _ _ (by rfl) ?_)
  refine noTickB_cons _ _ (hexDigC_noTick _ (by omega)) ?_
  refine noTickB_cons _ _ (hexDigC_noTick _ (by omega)) ?_
  refine noTickB_cons _ _ (hexDigC_noTick _ (by omega)) ?_
  exact noTickB_cons _ _ (hexDigC_noTick _ (by omega)) (by rfl)

theorem escJChar_noTickB (c : Char) : noTickB (escJChar c) = true := by
  rw [escJChar]
  by_cases h1 : c = '\"'
  · rw [if_pos h1]; rfl
  · rw [if_neg h1]
    by_cases h2 : c = '\\'
    · rw [if_pos h2]; rfl
    · rw [if_neg h2]
      by_cases h3 : c = tickC || c.toNat < 32
      · rw [if_pos h3]
        refine uEsc_noTickB c ?_
        rcases Bool.or_eq_true_iff.mp h3 with h | h
        · rw [show c = tickC from by exact_mod_cast of_decide_eq_true h]; decide
        · have : c.toNat < 32 := by simpa using h
          omega
      · rw [if_neg h3]
        have hc : ¬ c = tickC := by
          intro hctick
          exact h3 (by simp [hctick])
        exact noTickB_cons c [] (beq_eq_false_iff_ne.mpr hc) (by rfl)

theorem escJ_noTickB (cs : List Char) : noTickB (escJ cs) = true := by
  induction cs with
  | nil => rfl
  | cons c t ih =>
    show noTickB (escJChar c ++ escJ t) = true
    exact noTickB_append _ _ (escJChar_noTickB c) ih

theorem jstr_noTickB (s : String) : noTickB (jstr s) = true := by
  show noTickB ('\"' :: (escJ s.data ++ ['\"'])) = true
  exact noTickB_cons _ _ (by rfl) (noTickB_append _ _ (escJ_noTickB s.data) (by rfl))

theorem jitemsStr_noTickB (vs : List String) : noTickB (jitemsStr vs) = true := by
  induction vs with
  | nil => rfl
  | cons x t ih =>
    cases t with
    | nil => exact noTickB_append _ _ (jstr_noTickB x) (by rfl)
    | cons y t2 =>
      show noTickB (jstr x ++ ',' :: ' ' :: jitemsStr (y :: t2)) = true
      exact noTickB_append _ _ (jstr_noTickB x)
        (noTickB_cons _ _ (by rfl) (noTickB_cons _ _ (by rfl) ih))

theorem jarrStr_noTickB (vs : List String) : noTickB (jarrStr vs) = true := by
  show noTickB ('[' :: jitemsStr vs) = true
  exact noTickB_cons _ _ (by rfl) (jitemsStr_noTickB vs)

theorem jrec_noTickB (r : Recommendation) : noTickB (jrec r) = true := by
  show noTickB (['\x7b', '\"', 't', 'o', 'p', 'i', 'c', '\"', ':', ' '] ++
    (jstr r.topic ++ ([',', ' ', '\"', 'v', 'i', 'd', 'e', 'o', 's', '\"', ':', ' '] ++
      (jarrStr r.videos ++ ['\x7d'])))) = true
  exact noTickB_append _ _ (by rfl) (noTickB_append _ _ (jstr_noTickB _)
    (noTickB_append _ _ (by rfl) (noTickB_append _ _ (jarrStr_noTickB _) (by rfl))))

theorem jrecItems_noTickB (rs : List Recommendation) : noTickB (jrecItems rs) = true := by
  induction rs with
  | nil => rfl
  | cons r t ih =>
    cases t with
    | nil => exact noTickB_append _ _ (jrec_noTickB r) (by rfl)
    | cons s t2 =>
      show noTickB (jrec r ++ ',' :: ' ' :: jrecItems (s :: t2)) = true
      exact noTickB_append _ _ (jrec_noTickB r)
        (noTickB_cons _ _ (by rfl) (noTickB_cons _ _ (by rfl) ih))

theorem jrecs_noTickB (rs : List Recommendation) : noTickB (jrecs rs) = true := by
  show noTickB ('[' :: jrecItems rs) = true
  exact noTickB_cons _ _ (by rfl) (jrecItems_noTickB rs)

theorem takeUntilTriple_noTick (body : List Char) (h : noTickB body = true) (R : List Char) :
    takeUntilTriple (body ++ '\n' :: tickC :: tickC :: tickC :: R) =
      some (body ++ ['\n'], R) := by
  induction body with
  | nil =>
    show takeUntilTriple ('\n' :: tickC :: tickC :: tickC :: R) = some (['\n'], R)
    rw [takeUntilTriple, if_neg (by decide), takeUntilTriple, if_pos rfl,
      if_pos (by rfl)]
    rfl
  | cons c t ih =>
    have hct : (!(c == tickC) && noTickB t) = true := by
      simpa [noTickB] using h
    have hc : ¬ c = tickC := by
      intro hc
      rw [hc] at hct
      simp at hct
    have ht : noTickB t = true := (Bool.and_eq_true _ _ |>.mp hct).2
    show takeUntilTriple (c :: (t ++ '\n' :: tickC :: tickC :: tickC :: R)) = _
    rw [takeUntilTriple, if_neg hc, ih ht]
    rfl

theorem matchFenceAt_json (body : List Char) (h : noTickB body = true) :
    matchFenceAt (tickC :: tickC :: tickC :: 'j' :: 's' :: 'o' :: 'n' :: '\n' ::
      (body ++ '\n' :: tickC :: tickC :: tickC :: [])) = some (body ++ ['\n']) := by
  have ht := takeUntilTriple_noTick body h []
  show ((takeUntilTriple (body ++ '\n' :: tickC :: tickC :: tickC :: [])).map
      (fun p => p.1) <|>
    ((if listStartsWith ['p', 'y', 't', 'h', 'o', 'n']
          ('j' :: 's' :: 'o' :: 'n' :: '\n' :: (body ++ '\n' :: tickC :: tickC :: tickC :: []))
        then fenceTail (('j' :: 's' :: 'o' :: 'n' :: '\n' ::
          (body ++ '\n' :: tickC :: tickC :: tickC :: [])).drop 6)
        else Option.none) <|>
      fenceTail ('j' :: 's' :: 'o' :: 'n' :: '\n' ::
        (body ++ '\n' :: tickC :: tickC :: tickC :: [])))) = some (body ++ ['\n'])
  rw [ht]
  rfl

theorem searchFence_json (body : List Char) (h : noTickB body = true) :
    searchFence (tickC :: tickC :: tickC :: 'j' :: 's' :: 'o' :: 'n' :: '\n' ::
      (body ++ '\n' :: tickC :: tickC :: tickC :: [])) = some (body ++ ['\n']) := by
  rw [searchFence, matchFenceAt_json body h]
  rfl

theorem pyStrip_body (mid : List Char) :
    pyStrip (('[' :: (mid ++ [']'])) ++ ['\n']) = '[' :: (mid ++ [']']) := by
  show (((('[' :: (mid ++ [']'])) ++ ['\n']).dropWhile isPyWsChar).reverse.dropWhile
    isPyWsChar).reverse = _
  rw [show (('[' :: (mid ++ [']'])) ++ ['\n']).dropWhile isPyWsChar =
      ('[' :: (mid ++ [']'])) ++ ['\n'] by
    rw [List.cons_append, List.dropWhile_cons, if_neg (by decide)]]
  rw [show (('[' :: (mid ++ [']'])) ++ ['\n']).reverse =
      '\n' :: ']' :: (mid.reverse ++ ['[']) by
    simp [List.reverse_append, List.reverse_cons, List.append_assoc]]
  rw [List.dropWhile_cons, if_pos (by decide), List.dropWhile_cons, if_neg (by decide)]
  simp [List.reverse_append, List.reverse_cons]

theorem jrecItems_snoc (rs : List Recommendation) :
    ∃ mid, jrecItems rs = mid ++ [']'] := by
  induction rs with
  | nil => exact ⟨[], rfl⟩
  | cons r t ih =>
    cases t with
    | nil => exact ⟨jrec r, rfl⟩
    | cons s t2 =>
      obtain ⟨mid2, hmid2⟩ := ih
      refine ⟨jrec r ++ ',' :: ' ' :: mid2, ?_⟩
      show jrec r ++ ',' :: ' ' :: jrecItems (s :: t2) = _
      rw [hmid2, List.append_assoc]
      rfl

theorem cleanCandidate_json (rs : List Recommendation) :
    cleanCandidate (tickC :: tickC :: tickC :: 'j' :: 's' :: 'o' :: 'n' :: '\n' ::
      (jrecs rs ++ '\n' :: tickC :: tickC :: tickC :: [])) = jrecs rs := by
  rw [cleanCandidate, searchFence_json (jrecs rs) (jrecs_noTickB rs)]
  obtain ⟨mid, hmid⟩ := jrecItems_snoc rs
  show pyStrip (jrecs rs ++ ['\n']) = jrecs rs
  rw [show jrecs rs = '[' :: jrecItems rs from rfl, hmid]
  exact pyStrip_body mid

theorem safe_parse_serializeJson (rs : List Recommendation) :
    safe_parse_response (serializeJsonFenced rs) = (recsToVal rs, Option.none) := by
  show safe_parse_core (tickC :: tickC :: tickC :: 'j' :: 's' :: 'o' :: 'n' :: '\n' ::
    (jrecs rs ++ '\n' :: tickC :: tickC :: tickC :: [])) = _
  rw [safe_parse_core, cleanCandidate_json rs, json_loadsC_jrecs rs]

theorem parsePStr_uEsc (q : Char) (c : Char) (h : c.toNat < 65536) (X : List Char) :
    parsePStr q (uEsc c ++ X) = (parsePStr q X).map (fun p => (c :: p.1, p.2)) := by
  show parsePStr q ('\\' :: 'u' :: hexDigC (c.toNat / 4096) :: hexDigC (c.toNat / 256 % 16) ::
    hexDigC (c.toNat / 16 % 16) :: hexDigC (c.toNat % 16) :: X) = _
  rw [parsePStr.eq_def]
  show ((match hex4Val (hexDigC (c.toNat / 4096)) (hexDigC (c.toNat / 256 % 16))
      (hexDigC (c.toNat / 16 % 16)) (hexDigC (c.toNat % 16)) with
    | some n => (parsePStr q X).map (fun p => (Char.ofNat n :: p.1, p.2))
    | Option.none => Option.none) : Option (List Char × List Char)) = _
  rw [hex4Val_uEsc c h]
  show (parsePStr q X).map (fun p => (Char.ofNat c.toNat :: p.1, p.2)) = _
  rw [Char.ofNat_toNat]

theorem parsePStr_escP (cs : List Char) (X : List Char) :
    parsePStr aposC (escP cs ++ (aposC :: X)) = some (cs, X) := by
  induction cs with
  | nil =>
    show parsePStr aposC (aposC :: X) = some ([], X)
    rw [parsePStr.eq_def]
    exact rfl
  | cons c t ih =>
    show parsePStr aposC ((escPChar c ++ escP t) ++ (aposC :: X)) = some (c :: t, X)
    rw [List.append_assoc, escPChar]
    by_cases h1 : c = aposC
    · subst h1
      rw [if_pos rfl]
      show parsePStr aposC ('\\' :: aposC :: (escP t ++ (aposC :: X))) = _
      rw [parsePStr.eq_def]
      show (parsePStr aposC (escP t ++ (aposC :: X))).map (fun p => (aposC :: p.1, p.2)) = _
      rw [ih]
      rfl
    · rw [if_neg h1]
      by_cases h2 : c = '\\'
      · subst h2
        rw [if_pos rfl]
        show parsePStr aposC ('\\' :: '\\' :: (escP t ++ (aposC :: X))) = _
        rw [parsePStr.eq_def]
        show (parsePStr aposC (escP t ++ (aposC :: X))).map (fun p => ('\\' :: p.1, p.2)) = _
        rw [ih]
        rfl
      · rw [if_neg h2]
        by_cases h3 : c = tickC || c.toNat < 32
        · rw [if_pos h3, parsePStr_uEsc aposC c ?bound, ih]
          · rfl
          case bound =>
            rcases Bool.or_eq_true_iff.mp h3 with h | h
            · rw [show c = tickC from by exact_mod_cast of_decide_eq_true h]; decide
            · have : c.toNat < 32 := by simpa using h
              omega
        · rw [if_neg h3]
          have hc : ¬ c.toNat < 32 := by
            intro hlt
            exact h3 (by simp [hlt])
          have hnl : ¬ (c = '\n' || c = '\r') = true := by
            intro hcon
            rcases Bool.or_eq_true_iff.mp hcon with hx | hx
            · rw [show c = '\n' from by exact_mod_cast of_decide_eq_true hx] at hc
              exact hc (by decide)
            · rw [show c = '\r' from by exact_mod_cast of_decide_eq_true hx] at hc
              exact hc (by decide)
          have hbs : ¬ c = '\\' := h2
          show parsePStr aposC (c :: (escP t ++ (aposC :: X))) = some (c :: t, X)
          rw [parsePStr.eq_def]
          simp only [if_neg hbs, if_neg h1, if_neg hnl, ih]
          rfl

theorem parsePVal_quote (g : Nat) (X : List Char) :
    parsePVal (g + 1) (aposC :: X) =
      (parsePStr aposC X).map (fun p => (PyVal.str (String.mk p.1), p.2)) := by
  rw [parsePVal.eq_def]
  exact rfl

theorem parsePVal_pstr (f : Nat) (s : String) (X : List Char) (h : 1 ≤ f) :
    parsePVal f (pstr s ++ X) = some (PyVal.str s, X) := by
  cases f with
  | zero => omega
  | succ g =>
    show parsePVal (g + 1) (aposC :: ((escP s.data ++ [aposC]) ++ X)) = _
    rw [List.append_assoc]
    show parsePVal (g + 1) (aposC :: (escP s.data ++ (aposC :: X))) = _
    rw [parsePVal_quote, parsePStr_escP]
    show some (PyVal.str (String.mk s.data), X) = _
    rw [string_mk_data]

theorem skipJWs_pitems (y : String) (t : List String) (X : List Char) :
    skipJWs (pitemsStr (y :: t) ++ X) = pitemsStr (y :: t) ++ X := by
  cases t with
  | nil => exact skipJWs_notWs _ _ (by decide)
  | cons s t2 => exact skipJWs_notWs _ _ (by decide)

theorem parsePItems_succ (g : Nat) (cs : List Char) :
    parsePItems (g + 1) cs =
      match parsePVal g cs with
      | some (v, r) =>
        (match skipJWs r with
          | ',' :: r2 =>
            (match skipJWs r2 with
              | ']' :: r3 => some ([v], r3)
              | r3 => (parsePItems g r3).map (fun p => (v :: p.1, p.2)))
          | ']' :: r2 => some ([v], r2)
          | _ => Option.none)
      | Option.none => Option.none := by
  rw [parsePItems.eq_def]

theorem parsePItems_pitems (vs : List String) :
    ∀ (f : Nat) (X : List Char), vs.length + 1 ≤ f → vs ≠ [] →
      parsePItems f (pitemsStr vs ++ X) = some (vs.map PyVal.str, X) := by
  induction vs with
  | nil => intro f X h hne; exact absurd rfl hne
  | cons x t ih =>
    intro f X h _
    cases f with
    | zero => omega
    | succ g =>
      cases t with
      | nil =>
        show parsePItems (g + 1) ((pstr x ++ [']']) ++ X) = some ([PyVal.str x], X)
        rw [List.append_assoc, parsePItems_succ,
          parsePVal_pstr g x ([']'] ++ X)
            (by simp only [List.length_cons, List.length_nil] at h; omega)]
        exact rfl
      | cons y t2 =>
        obtain ⟨Z, hZ⟩ : ∃ Z, pitemsStr (y :: t2) = pstr y ++ Z := by
          cases t2 with
          | nil => exact ⟨[']'], rfl⟩
          | cons s t3 => exact ⟨',' :: ' ' :: pitemsStr (s :: t3), rfl⟩
        show parsePItems (g + 1) ((pstr x ++ (',' :: ' ' :: pitemsStr (y :: t2))) ++ X) =
          some (PyVal.str x :: (y :: t2).map PyVal.str, X)
        rw [List.append_assoc, parsePItems_succ,
          parsePVal_pstr g x ((',' :: ' ' :: pitemsStr (y :: t2)) ++ X)
            (by simp only [List.length_cons] at h; omega)]
        show ((match skipJWs (' ' :: (pitemsStr (y :: t2) ++ X)) with
          | ']' :: r3 => some ([PyVal.str x], r3)
          | r3 => (parsePItems g r3).map (fun p => (PyVal.str x :: p.1, p.2))) :
            Option (List PyVal × List Char)) = _
        rw [skipJWs_space, hZ, List.append_assoc,
          show skipJWs (pstr y ++ (Z ++ X)) = pstr y ++ (Z ++ X)
            from skipJWs_notWs _ _ (by decide)]
        show (parsePItems g (pstr y ++ (Z ++ X))).map
          (fun p => (PyVal.str x :: p.1, p.2)) = _
        rw [← List.append_assoc, ← hZ,
          ih g X (by simp only [List.length_cons] at h ⊢; omega) (by simp)]
        rfl

theorem parsePVal_brkt (g : Nat) (X : List Char) :
    parsePVal (g + 1) ('[' :: X) =
      (match skipJWs X with
        | ']' :: r => some (PyVal.list [], r)
        | t1 => (parsePItems g t1).map (fun p => (PyVal.list p.1, p.2))) := by
  rw [parsePVal.eq_def]
  exact rfl

theorem parsePVal_parr (f : Nat) (vs : List String) (X : List Char)
    (h : vs.length + 2 ≤ f) :
    parsePVal f (parrStr vs ++ X) = some (PyVal.list (vs.map PyVal.str), X) := by
  cases f with
  | zero => omega
  | succ g =>
    show parsePVal (g + 1) ('[' :: (pitemsStr vs ++ X)) = _
    rw [parsePVal_brkt]
    cases vs with
    | nil => exact rfl
    | cons y t =>
      cases t with
      | nil =>
        show (parsePItems g (pitemsStr [y] ++ X)).map (fun p => (PyVal.list p.1, p.2)) = _
        rw [parsePItems_pitems [y] g X
          (by simp only [List.length_cons, List.length_nil] at h ⊢; omega) (by simp)]
        rfl
      | cons s t2 =>
        show (parsePItems g (pitemsStr (y :: s :: t2) ++ X)).map
          (fun p => (PyVal.list p.1, p.2)) = _
        rw [parsePItems_pitems (y :: s :: t2) g X
          (by simp only [List.length_cons] at h ⊢; omega) (by simp)]
        rfl

theorem parsePVal_brace (g : Nat) (X : List Char) :
    parsePVal (g + 1) ('\x7b' :: X) =
      (match skipJWs X with
        | '\x7d' :: r => some (PyVal.dict [], r)
        | t1 =>
          match parsePVal g t1 with
          | some (k, r) =>
            (match skipJWs r with
              | ':' :: r2 =>
                (match parsePVal g (skipJWs r2) with
                  | some (v, r3) =>
                    (match skipJWs r3 with
                      | ',' :: r4 =>
                        (match skipJWs r4 with
                          | '\x7d' :: r5 => some (PyVal.dict [(k, v)], r5)
                          | r5 => (parsePPairs g r5).map
                              (fun p => (PyVal.dict ((k, v) :: p.1), p.2)))
                      | '\x7d' :: r4 => some (PyVal.dict [(k, v)], r4)
                      | _ => Option.none)
                  | Option.none => Option.none)
              | ',' :: r2 =>
                (match skipJWs r2 with
                  | '\x7d' :: r3 => some (PyVal.set [k], r3)
                  | r3 => (parsePSetItems g r3).map (fun p => (PyVal.set (k :: p.1), p.2)))
              | '\x7d' :: r2 => some (PyVal.set [k], r2)
              | _ => Option.none)
          | Option.none => Option.none) := by
  rw [parsePVal.eq_def]
  exact rfl

theorem parsePPairs_succ (g : Nat) (cs : List Char) :
    parsePPairs (g + 1) cs =
      match parsePVal g cs with
      | some (k, r) =>
        (match skipJWs r with
          | ':' :: r2 =>
            (match parsePVal g (skipJWs r2) with
              | some (v, r3) =>
                (match skipJWs r3 with
                  | ',' :: r4 =>
                    (match skipJWs r4 with
                      | '\x7d' :: r5 => some ([(k, v)], r5)
                      | r5 => (parsePPairs g r5).map (fun p => ((k, v) :: p.1, p.2)))
                  | '\x7d' :: r4 => some ([(k, v)], r4)
                  | _ => Option.none)
              | Option.none => Option.none)
          | _ => Option.none)
      | Option.none => Option.none := by
  rw [parsePPairs.eq_def]

theorem parsePVal_prec (f : Nat) (r : Recommendation) (X : List Char)
    (h : r.videos.length + 6 ≤ f) :
    parsePVal f (prec r ++ X) = some (recToVal r, X) := by
  obtain ⟨g2, rfl⟩ : ∃ g2, f = g2 + 3 := ⟨f - 3, by omega⟩
  show parsePVal (g2 + 2 + 1) ('\x7b' :: aposC :: 't' :: 'o' :: 'p' :: 'i' :: 'c' :: aposC :: ':' :: ' ' ::
    ((pstr r.topic ++
      (',' :: ' ' :: aposC :: 'v' :: 'i' :: 'd' :: 'e' :: 'o' :: 's' :: aposC :: ':' :: ' ' ::
        (parrStr r.videos ++ ['\x7d']))) ++ X)) = some (recToVal r, X)
  simp only [List.cons_append, List.append_assoc, List.nil_append]
  rw [parsePVal_brace]
  show (match parsePVal (g2 + 2) (aposC :: 't' :: 'o' :: 'p' :: 'i' :: 'c' :: aposC :: ':' :: ' ' :: (pstr r.topic ++ ',' :: ' ' :: aposC :: 'v' :: 'i' :: 'd' :: 'e' :: 'o' :: 's' :: aposC :: ':' :: ' ' :: (parrStr r.videos ++ '\x7d' :: X))) with
    | some (k, r2) =>
      (match skipJWs r2 with
        | ':' :: r3 =>
          (match parsePVal (g2 + 2) (skipJWs r3) with
            | some (v, r4) =>
              (match skipJWs r4 with
                | ',' :: r5 =>
                  (match skipJWs r5 with
                    | '\x7d' :: r6 => some (PyVal.dict [(k, v)], r6)
                    | r6 => (parsePPairs (g2 + 2) r6).map
                        (fun p => (PyVal.dict ((k, v) :: p.1), p.2)))
                | '\x7d' :: r5 => some (PyVal.dict [(k, v)], r5)
                | _ => Option.none)
            | Option.none => Option.none)
        | ',' :: r3 =>
          (match skipJWs r3 with
            | '\x7d' :: r4 => some (PyVal.set [k], r4)
            | r4 => (parsePSetItems (g2 + 2) r4).map (fun p => (PyVal.set (k :: p.1), p.2)))
        | '\x7d' :: r3 => some (PyVal.set [k], r3)
        | _ => Option.none)
    | Option.none => Option.none) = some (recToVal r, X)
  rw [show parsePVal (g2 + 2) (aposC :: 't' :: 'o' :: 'p' :: 'i' :: 'c' :: aposC :: ':' :: ' ' :: (pstr r.topic ++ ',' :: ' ' :: aposC :: 'v' :: 'i' :: 'd' :: 'e' :: 'o' :: 's' :: aposC :: ':' :: ' ' :: (parrStr r.videos ++ '\x7d' :: X))) =
      some (PyVal.str "topic", ':' :: ' ' :: (pstr r.topic ++ ',' :: ' ' :: aposC :: 'v' :: 'i' :: 'd' :: 'e' :: 'o' :: 's' :: aposC :: ':' :: ' ' :: (parrStr r.videos ++ '\x7d' :: X)))
    from parsePVal_pstr (g2 + 2) "topic" (':' :: ' ' :: (pstr r.topic ++ ',' :: ' ' :: aposC :: 'v' :: 'i' :: 'd' :: 'e' :: 'o' :: 's' :: aposC :: ':' :: ' ' :: (parrStr r.videos ++ '\x7d' :: X))) (by omega)]
  show (match parsePVal (g2 + 2) (skipJWs (' ' :: (pstr r.topic ++ ',' :: ' ' :: aposC :: 'v' :: 'i' :: 'd' :: 'e' :: 'o' :: 's' :: aposC :: ':' :: ' ' :: (parrStr r.videos ++ '\x7d' :: X)))) with
    | some (v, r4) =>
      (match skipJWs r4 with
        | ',' :: r5 =>
          (match skipJWs r5 with
            | '\x7d' :: r6 => some (PyVal.dict [(PyVal.str "topic", v)], r6)
            | r6 => (parsePPairs (g2 + 2) r6).map
                (fun p => (PyVal.dict ((PyVal.str "topic", v) :: p.1), p.2)))
        | '\x7d' :: r5 => some (PyVal.dict [(PyVal.str "topic", v)], r5)
        | _ => Option.none)
    | Option.none => Option.none) = some (recToVal r, X)
  rw [show parsePVal (g2 + 2) (skipJWs (' ' :: (pstr r.topic ++ ',' :: ' ' :: aposC :: 'v' :: 'i' :: 'd' :: 'e' :: 'o' :: 's' :: aposC :: ':' :: ' ' :: (parrStr r.videos ++ '\x7d' :: X)))) =
      some (PyVal.str r.topic, ',' :: ' ' :: aposC :: 'v' :: 'i' :: 'd' :: 'e' :: 'o' :: 's' :: aposC :: ':' :: ' ' :: (parrStr r.videos ++ '\x7d' :: X))
    from parsePVal_pstr (g2 + 2) r.topic (',' :: ' ' :: aposC :: 'v' :: 'i' :: 'd' :: 'e' :: 'o' :: 's' :: aposC :: ':' :: ' ' :: (parrStr r.videos ++ '\x7d' :: X)) (by omega)]
  show (parsePPairs (g2 + 1 + 1) (aposC :: 'v' :: 'i' :: 'd' :: 'e' :: 'o' :: 's' :: aposC :: ':' :: ' ' :: (parrStr r.videos ++ '\x7d' :: X))).map
    (fun p => (PyVal.dict ((PyVal.str "topic", PyVal.str r.topic) :: p.1), p.2)) =
    some (recToVal r, X)
  rw [parsePPairs_succ]
  rw [show parsePVal (g2 + 1) (aposC :: 'v' :: 'i' :: 'd' :: 'e' :: 'o' :: 's' :: aposC :: ':' :: ' ' :: (parrStr r.videos ++ '\x7d' :: X)) =
      some (PyVal.str "videos", ':' :: ' ' :: (parrStr r.videos ++ '\x7d' :: X))
    from parsePVal_pstr (g2 + 1) "videos" (':' :: ' ' :: (parrStr r.videos ++ '\x7d' :: X)) (by omega)]
  show ((match parsePVal (g2 + 1) (skipJWs (' ' :: (parrStr r.videos ++ '\x7d' :: X))) with
    | some (v, r4) =>
      (match skipJWs r4 with
        | ',' :: r5 =>
          (match skipJWs r5 with
            | '\x7d' :: r6 => some ([(PyVal.str "videos", v)], r6)
            | r6 => (parsePPairs (g2 + 1) r6).map
                (fun p => ((PyVal.str "videos", v) :: p.1, p.2)))
        | '\x7d' :: r5 => some ([(PyVal.str "videos", v)], r5)
        | _ => Option.none)
    | Option.none => Option.none) :
      Option (List (PyVal × PyVal) × List Char)).map
    (fun p => (PyVal.dict ((PyVal.str "topic", PyVal.str r.topic) :: p.1), p.2)) =
    some (recToVal r, X)
  rw [show parsePVal (g2 + 1) (skipJWs (' ' :: (parrStr r.videos ++ '\x7d' :: X))) =
      some (PyVal.list (r.videos.map PyVal.str), '\x7d' :: X)
    from parsePVal_parr (g2 + 1) r.videos ('\x7d' :: X) (by omega)]
  exact rfl

theorem skipJWs_precItems (s : Recommendation) (t : List Recommendation) (X : List Char) :
    skipJWs (precItems (s :: t) ++ X) = precItems (s :: t) ++ X := by
  cases t with
  | nil => exact skipJWs_notWs _ _ (by decide)
  | cons s2 t2 => exact skipJWs_notWs _ _ (by decide)

theorem precItems_cons_eq (s : Recommendation) (t : List Recommendation) :
    ∃ Z, precItems (s :: t) = prec s ++ Z := by
  cases t with
  | nil => exact ⟨[']'], rfl⟩
  | cons s2 t2 => exact ⟨',' :: ' ' :: precItems (s2 :: t2), rfl⟩

theorem parsePItems_precItems (rs : List Recommendation) :
    ∀ (f : Nat) (X : List Char), needP rs ≤ f → rs ≠ [] →
      parsePItems f (precItems rs ++ X) = some (rs.map recToVal, X) := by
  induction rs with
  | nil => intro f X h hne; exact absurd rfl hne
  | cons r t ih =>
    intro f X h _
    cases f with
    | zero => simp only [needP] at h; omega
    | succ g =>
      cases t with
      | nil =>
        show parsePItems (g + 1) ((prec r ++ [']']) ++ X) = some ([recToVal r], X)
        rw [List.append_assoc, parsePItems_succ,
          parsePVal_prec g r ([']'] ++ X) (by simp only [needP] at h; omega)]
        exact rfl
      | cons s t2 =>
        obtain ⟨Z, hZ⟩ := precItems_cons_eq s t2
        show parsePItems (g + 1) ((prec r ++ (',' :: ' ' :: precItems (s :: t2))) ++ X) =
          some (recToVal r :: (s :: t2).map recToVal, X)
        rw [List.append_assoc, parsePItems_succ,
          parsePVal_prec g r ((',' :: ' ' :: precItems (s :: t2)) ++ X)
            (by simp only [needP] at h; omega)]
        show ((match skipJWs (' ' :: (precItems (s :: t2) ++ X)) with
          | ']' :: r3 => some ([recToVal r], r3)
          | r3 => (parsePItems g r3).map (fun p => (recToVal r :: p.1, p.2))) :
            Option (List PyVal × List Char)) = _
        rw [skipJWs_space, hZ, List.append_assoc,
          show skipJWs (prec s ++ (Z ++ X)) = prec s ++ (Z ++ X)
            from skipJWs_notWs _ _ (by decide)]
        show (parsePItems g (prec s ++ (Z ++ X))).map
          (fun p => (recToVal r :: p.1, p.2)) = _
        rw [← List.append_assoc, ← hZ,
          ih g X (by simp only [needP] at h ⊢; omega) (by simp)]
        rfl

theorem pstr_len (s : String) : 2 ≤ (pstr s).length := by
  simp [pstr]

theorem pitemsStr_len (vs : List String) :
    2 * vs.length ≤ (pitemsStr vs).length ∧ 1 ≤ (pitemsStr vs).length := by
  induction vs with
  | nil => simp [pitemsStr]
  | cons x t ih =>
    cases t with
    | nil =>
      have := pstr_len x
      show 2 * [x].length ≤ (pstr x ++ [']']).length ∧ 1 ≤ (pstr x ++ [']']).length
      simp only [List.length_append, List.length_cons, List.length_nil]
      omega
    | cons y t2 =>
      have h1 := pstr_len x
      show 2 * (x :: y :: t2).length ≤ (pstr x ++ ',' :: ' ' :: pitemsStr (y :: t2)).length ∧
        1 ≤ (pstr x ++ ',' :: ' ' :: pitemsStr (y :: t2)).length
      simp only [List.length_append, List.length_cons] at ih ⊢
      omega

theorem prec_len (r : Recommendation) : r.videos.length + 6 ≤ (prec r).length := by
  have h1 := pstr_len r.topic
  have h2 := pitemsStr_len r.videos
  simp only [prec, parrStr, List.length_append, List.length_cons]
  omega

theorem needP_le (rs : List Recommendation) : needP rs ≤ 2 * (precItems rs).length := by
  induction rs with
  | nil => simp [needP, precItems]
  | cons r t ih =>
    have h1 := prec_len r
    cases t with
    | nil =>
      show needP [r] ≤ 2 * (prec r ++ [']']).length
      simp only [needP, List.length_append, List.length_cons, List.length_nil]
      omega
    | cons s t2 =>
      show needP (r :: s :: t2) ≤ 2 * (prec r ++ ',' :: ' ' :: precItems (s :: t2)).length
      simp only [needP, List.length_append, List.length_cons] at ih ⊢
      omega

theorem literal_evalC_precs (rs : List Recommendation) :
    literal_evalC (precs rs) = some (recsToVal rs) := by
  cases rs with
  | nil => rfl
  | cons r t =>
    obtain ⟨Z, hZ⟩ := precItems_cons_eq r t
    obtain ⟨g, hg⟩ : ∃ g, 2 * (precs (r :: t)).length + 8 = g + 1 :=
      ⟨2 * (precs (r :: t)).length + 7, by omega⟩
    have hitems := parsePItems_precItems (r :: t) g []
      (by
        have := needP_le (r :: t)
        simp only [precs, List.length_cons] at hg
        omega)
      (by simp)
    rw [List.append_nil] at hitems
    simp only [literal_evalC]
    rw [hg,
      show (precs (r :: t)).dropWhile (fun c => c = ' ' || c = '\t') =
        '[' :: precItems (r :: t) from rfl,
      parsePVal_brkt,
      show skipJWs (precItems (r :: t)) = precItems (r :: t)
        from hZ ▸ skipJWs_notWs '\x7b' _ (by decide)]
    rw [hZ] at hitems ⊢
    show (match (parsePItems g (prec r ++ Z)).map (fun p => (PyVal.list p.1, p.2)) with
      | some (v, rest) => if skipJWs rest = [] then some v else Option.none
      | Option.none => Option.none) = some (recsToVal (r :: t))
    rw [hitems]
    exact rfl

theorem parseJPairs_apos (g : Nat) (X : List Char) :
    parseJPairs g (aposC :: X) = Option.none := by
  cases g with
  | zero =>
    rw [parseJPairs.eq_def]
  | succ g2 =>
    rw [parseJPairs.eq_def]
    exact rfl

theorem parseJVal_braceApos (g : Nat) (X : List Char) :
    parseJVal (g + 1) ('\x7b' :: aposC :: X) = Option.none := by
  rw [parseJVal_obj]
  show (parseJPairs g (aposC :: X)).map (fun p => (PyVal.dict p.1, p.2)) = Option.none
  rw [parseJPairs_apos]
  rfl

theorem parseJItems_braceApos (g : Nat) (X : List Char) :
    parseJItems g ('\x7b' :: aposC :: X) = Option.none := by
  cases g with
  | zero => rw [parseJItems.eq_def]
  | succ g2 =>
    rw [parseJItems_succ]
    cases g2 with
    | zero => exact rfl
    | succ g3 =>
      rw [parseJVal_braceApos g3]

theorem json_loadsC_precs (r : Recommendation) (t : List Recommendation) :
    json_loadsC (precs (r :: t)) = Option.none := by
  obtain ⟨Z, hZ⟩ := precItems_cons_eq r t
  obtain ⟨g, hg⟩ : ∃ g, 2 * (precs (r :: t)).length + 8 = g + 1 :=
    ⟨2 * (precs (r :: t)).length + 7, by omega⟩
  rw [json_loadsC, hg,
    show skipJWs (precs (r :: t)) = '[' :: precItems (r :: t)
      from skipJWs_notWs _ _ (by decide),
    parseJVal_arr, hZ,
    show skipJWs (prec r ++ Z) = prec r ++ Z from skipJWs_notWs _ _ (by decide)]
  show (match (parseJItems g (prec r ++ Z)).map (fun p => (PyVal.list p.1, p.2)) with
    | some (v, rest) => if skipJWs rest = [] then some v else Option.none
    | Option.none => Option.none) = Option.none
  rw [show parseJItems g (prec r ++ Z) = Option.none from parseJItems_braceApos g _]
  rfl

theorem escPChar_noTickB (c : Char) : noTickB (escPChar c) = true := by
  rw [escPChar]
  by_cases h1 : c = aposC
  · rw [if_pos h1]; rfl
  · rw [if_neg h1]
    by_cases h2 : c = '\\'
    · rw [if_pos h2]; rfl
    · rw [if_neg h2]
      by_cases h3 : c = tickC || c.toNat < 32
      · rw [if_pos h3]
        refine uEsc_noTickB c ?_
        rcases Bool.or_eq_true_iff.mp h3 with h | h
        · rw [show c = tickC from by exact_mod_cast of_decide_eq_true h]; decide
        · have : c.toNat < 32 := by simpa using h
          omega
      · rw [if_neg h3]
        have hc : ¬ c = tickC := by
          intro hctick
          exact h3 (by simp [hctick])
        exact noTickB_cons c [] (beq_eq_false_iff_ne.mpr hc) (by rfl)

theorem escP_noTickB (cs : List Char) : noTickB (escP cs) = true := by
  induction cs with
  | nil => rfl
  | cons c t ih =>
    show noTickB (escPChar c ++ escP t) = true
    exact noTickB_append _ _ (escPChar_noTickB c) ih

theorem pstr_noTickB (s : String) : noTickB (pstr s) = true := by
  show noTickB (aposC :: (escP s.data ++ [aposC])) = true
  exact noTickB_cons _ _ (by rfl) (noTickB_append _ _ (escP_noTickB s.data) (by rfl))

theorem pitemsStr_noTickB (vs : List String) : noTickB (pitemsStr vs) = true := by
  induction vs with
  | nil => rfl
  | cons x t ih =>
    cases t with
    | nil => exact noTickB_append _ _ (pstr_noTickB x) (by rfl)
    | cons y t2 =>
      show noTickB (pstr x ++ ',' :: ' ' :: pitemsStr (y :: t2)) = true
      exact noTickB_append _ _ (pstr_noTickB x)
        (noTickB_cons _ _ (by rfl) (noTickB_cons _ _ (by rfl) ih))

theorem parrStr_noTickB (vs : List String) : noTickB (parrStr vs) = true := by
  show noTickB ('[' :: pitemsStr vs) = true
  exact noTickB_cons _ _ (by rfl) (pitemsStr_noTickB vs)

theorem prec_noTickB (r : Recommendation) : noTickB (prec r) = true := by
  show noTickB (['\x7b', aposC, 't', 'o', 'p', 'i', 'c', aposC, ':', ' '] ++
    (pstr r.topic ++ ([',', ' ', aposC, 'v', 'i', 'd', 'e', 'o', 's', aposC, ':', ' '] ++
      (parrStr r.videos ++ ['\x7d'])))) = true
  exact noTickB_append _ _ (by rfl) (noTickB_append _ _ (pstr_noTickB _)
    (noTickB_append _ _ (by rfl) (noTickB_append _ _ (parrStr_noTickB _) (by rfl))))

theorem precItems_noTickB (rs : List Recommendation) : noTickB (precItems rs) = true := by
  induction rs with
  | nil => rfl
  | cons r t ih =>
    cases t with
    | nil => exact noTickB_append _ _ (prec_noTickB r) (by rfl)
    | cons s t2 =>
      show noTickB (prec r ++ ',' :: ' ' :: precItems (s :: t2)) = true
      exact noTickB_append _ _ (prec_noTickB r)
        (noTickB_cons _ _ (by rfl) (noTickB_cons _ _ (by rfl) ih))

theorem precs_noTickB (rs : List Recommendation) : noTickB (precs rs) = true := by
  show noTickB ('[' :: precItems rs) = true
  exact noTickB_cons _ _ (by rfl) (precItems_noTickB rs)

theorem matchFenceAt_python (body : List Char) (h : noTickB body = true) :
    matchFenceAt (tickC :: tickC :: tickC :: 'p' :: 'y' :: 't' :: 'h' :: 'o' :: 'n' :: '\n' ::
      (body ++ '\n' :: tickC :: tickC :: tickC :: [])) = some (body ++ ['\n']) := by
  have ht := takeUntilTriple_noTick body h []
  show ((takeUntilTriple (body ++ '\n' :: tickC :: tickC :: tickC :: [])).map
      (fun p => p.1) <|>
    fenceTail ('p' :: 'y' :: 't' :: 'h' :: 'o' :: 'n' :: '\n' ::
      (body ++ '\n' :: tickC :: tickC :: tickC :: []))) = some (body ++ ['\n'])
  rw [ht]
  rfl

theorem searchFence_python (body : List Char) (h : noTickB body = true) :
    searchFence (tickC :: tickC :: tickC :: 'p' :: 'y' :: 't' :: 'h' :: 'o' :: 'n' :: '\n' ::
      (body ++ '\n' :: tickC :: tickC :: tickC :: [])) = some (body ++ ['\n']) := by
  rw [searchFence, matchFenceAt_python body h]
  rfl

theorem precItems_snoc (rs : List Recommendation) :
    ∃ mid, precItems rs = mid ++ [']'] := by
  induction rs with
  | nil => exact ⟨[], rfl⟩
  | cons r t ih =>
    cases t with
    | nil => exact ⟨prec r, rfl⟩
    | cons s t2 =>
      obtain ⟨mid2, hmid2⟩ := ih
      refine ⟨prec r ++ ',' :: ' ' :: mid2, ?_⟩
      show prec r ++ ',' :: ' ' :: precItems (s :: t2) = _
      rw [hmid2, List.append_assoc]
      rfl

theorem cleanCandidate_python (rs : List Recommendation) :
    cleanCandidate (tickC :: tickC :: tickC :: 'p' :: 'y' :: 't' :: 'h' :: 'o' :: 'n' :: '\n' ::
      (precs rs ++ '\n' :: tickC :: tickC :: tickC :: [])) = precs rs := by
  rw [cleanCandidate, searchFence_python (precs rs) (precs_noTickB rs)]
  obtain ⟨mid, hmid⟩ := precItems_snoc rs
  show pyStrip (precs rs ++ ['\n']) = precs rs
  rw [show precs rs = '[' :: precItems rs from rfl, hmid]
  exact pyStrip_body mid

theorem safe_parse_serializePy (rs : List Recommendation) :
    safe_parse_response (serializePyFenced rs) = (recsToVal rs, Option.none) := by
  cases rs with
  | nil => rfl
  | cons r t =>
    show safe_parse_core (tickC :: tickC :: tickC :: 'p' :: 'y' :: 't' :: 'h' :: 'o' :: 'n' :: '\n' ::
      (precs (r :: t) ++ '\n' :: tickC :: tickC :: tickC :: [])) = _
    rw [safe_parse_core, cleanCandidate_python (r :: t), json_loadsC_precs r t,
      literal_evalC_precs (r :: t)]

/-- C5: round-trip law. For every list of `\x7btopic, videos\x7d` records,
serializing it as a fenced JSON block (triple backticks, `json` tag) and
feeding the result to `safe_parse_response` recovers exactly the value
encoding of the records, in order, with no error; and the same round-trip
holds when the fence is tagged as a Python block with single-quoted string
literals, recovered via the permissive `ast.literal_eval` fallback (for a
nonempty record list the JSON step fails on the single-quoted text and the
fallback decodes it; the empty list serializes to `[]`, which the strict
JSON step already accepts with the same resulting value). The serializers
escape backticks and control characters with `\uXXXX` escapes — legal in
both JSON and Python string literals — so the serialized body never
contains a backtick and the lazy fence regex always captures it whole. -/
theorem round_trip_c5 (rs : List Recommendation) :
    safe_parse_response (serializeJsonFenced rs) = (recsToVal rs, Option.none) ∧
    safe_parse_response (serializePyFenced rs) = (recsToVal rs, Option.none) :=
  ⟨safe_parse_serializeJson rs, safe_parse_serializePy rs⟩

/-- C1 (counterexample): on the spec's example input, `extract` does not
return `["Binary Trees", "Graph Algorithms", "Recursion"]`: in the source
regex the alternative `Module \d+` precedes `Module \d+:`, so on
`"Module 3: Recursion"` the colon survives the substitution and the kept
line is `": Recursion"`. -/
theorem extract_c1_claim_false :
    extract_syllabus_topics
        "1. Binary Trees\n- Graph Algorithms\nModule 3: Recursion\n5L\nOK" ≠
      ["Binary Trees", "Graph Algorithms", "Recursion"] := by
  decide

/-- C1 (amended): `extract` on the example input returns
`["Binary Trees", "Graph Algorithms", ": Recursion"]` — numbering and
bullet markers are stripped, the module marker is stripped only up to its
number (the colon survives, and the line is kept since `": Recursion"` still
has two whitespace-separated tokens), the bare hour-suffix line `"5L"` is
dropped, and the single-word line `"OK"` is dropped. -/
theorem extract_c1_amended :
    extract_syllabus_topics
        "1. Binary Trees\n- Graph Algorithms\nModule 3: Recursion\n5L\nOK" =
      ["Binary Trees", "Graph Algorithms", ": Recursion"] := by
  decide
